import Mathlib

/-!
Verification of the pcb_renderer parse-normalize-validate pipeline.

This file shallowly embeds the core of the `pcb_renderer` Python package
(`parse.py`, `geometry.py`, `validate.py`, the parts of `models.py` that
the validator reads) and proves or refutes the frozen claims about it.

Modelling conventions:
- JSON documents are modelled by the inductive type `Json`; objects are
  association lists preserving insertion order, mirroring Python dicts.
- Python numbers (int/float) are modelled by rationals.  The claims under
  verification are about which values are scaled, compared or rejected,
  not about binary floating-point rounding, so the exact-arithmetic model
  is faithful for them.
- Python exceptions are modelled with `Except PyErr`; a `.error` value
  marks the exact program point where the Python code raises.
- Error messages and the `context` dictionary of ValidationError are
  display-only fields never consulted by the code or the claims; the
  embedded `ValidationErr` carries the claim-relevant fields
  (code, severity, json_path).
-/

namespace PCB

/-- JSON-like values as produced by `json.loads`.  Python dicts keep
insertion order, hence objects are association lists. -/
inductive Json : Type where
  | null : Json
  | bool : Bool → Json
  | num : ℚ → Json
  | str : String → Json
  | arr : List Json → Json
  | obj : List (String × Json) → Json

/-- A parsed JSON document (top-level object), as a Python dict. -/
abbrev Obj := List (String × Json)

/-- Dictionary lookup: `d.get(k)` / `d[k]` on a Python dict. -/
def lookupKV : Obj → String → Option Json
  | [], _ => none
  | (k', v) :: rest, k => if k' = k then some v else lookupKV rest k

/-- Dictionary update `d[k] = v`: replace in place if the key exists,
append otherwise (Python dict semantics). -/
def setKey : Obj → String → Json → Obj
  | [], k, v => [(k, v)]
  | (k', v') :: rest, k, v =>
      if k' = k then (k, v) :: rest else (k', v') :: setKey rest k v

/-- Python truthiness of a JSON value (`if not raw: ...`). -/
def jsonFalsy : Json → Bool
  | .null => true
  | .bool b => !b
  | .num q => q = 0
  | .str s => s.isEmpty
  | .arr l => l.isEmpty
  | .obj l => l.isEmpty

/-! ## Error codes and structured validation errors (errors.py) -/

/-- ErrorCode enum from errors.py. -/
inductive ErrorCode : Type where
  | MISSING_BOUNDARY
  | MALFORMED_COORDINATES
  | SELF_INTERSECTING_BOUNDARY
  | COMPONENT_OUTSIDE_BOUNDARY
  | INVALID_ROTATION
  | DANGLING_TRACE
  | NONEXISTENT_NET
  | NONEXISTENT_LAYER
  | INVALID_VIA_GEOMETRY
  | MALFORMED_TRACE
  | NEGATIVE_WIDTH
  | EMPTY_BOARD
  | INVALID_PIN_REFERENCE
  | MALFORMED_STACKUP
  | INVALID_UNIT_SPECIFICATION
  | MALFORMED_JSON
  | FILE_IO_ERROR
  | PARSE_ERROR
deriving DecidableEq, Repr

/-- Severity enum from errors.py. -/
inductive Severity : Type where
  | ERROR
  | WARNING
  | INFO
deriving DecidableEq, Repr

/-- ValidationError dataclass from errors.py; the human-readable
`message` and the debugging `context` map are display-only and are not
modelled (no code path or claim reads them). -/
structure ValidationErr : Type where
  code : ErrorCode
  severity : Severity
  json_path : String
deriving DecidableEq, Repr

/-- Python exceptions that the embedded code can raise.  pydantic
ValidationError is a subclass of ValueError and is modelled as
`valueError`. -/
inductive PyErr : Type where
  | valueError (msg : String)
  | typeError (msg : String)
  | attributeError (msg : String)
  | indexError (msg : String)
  | keyError (msg : String)
  | zeroDivisionError (msg : String)
deriving DecidableEq, Repr

/-! ## Unit normalization (parse.py: _scale_value, normalize_units) -/

/-- Conversion factor, parse.py line 56: 1 micron = 0.001 millimeters. -/
def MICRON_TO_MM : ℚ := 1 / 1000

mutual

/-- _scale_value from parse.py: recursively scale numeric values in a
nested structure.  Booleans are checked before numbers exactly as in the
source (in Python bool is a subclass of int); here the constructors are
disjoint so the bool case simply returns the value unchanged. -/
def scale_value : Json → ℚ → Json
  | .bool b, _ => .bool b
  | .num q, scale => .num (q * scale)
  | .arr xs, scale => .arr (scale_list xs scale)
  | .obj kvs, scale => .obj (scale_obj kvs scale)
  | .null, _ => .null
  | .str s, _ => .str s

/-- List case of _scale_value. -/
def scale_list : List Json → ℚ → List Json
  | [], _ => []
  | x :: xs, scale => scale_value x scale :: scale_list xs scale

/-- Dict case of _scale_value (values scaled, keys kept). -/
def scale_obj : List (String × Json) → ℚ → List (String × Json)
  | [], _ => []
  | (k, v) :: kvs, scale => (k, scale_value v scale) :: scale_obj kvs scale

end

mutual

/-- Specification-side relation: `ScaledBy s v w` holds when `w` is `v`
with every numeric value multiplied by `s` and every boolean and
non-numeric value unchanged, the structure preserved. -/
inductive ScaledBy : ℚ → Json → Json → Prop where
  | nullS : ∀ s, ScaledBy s .null .null
  | boolS : ∀ s b, ScaledBy s (.bool b) (.bool b)
  | strS : ∀ s t, ScaledBy s (.str t) (.str t)
  | numS : ∀ s q, ScaledBy s (.num q) (.num (q * s))
  | arrS : ∀ s xs ys, ScaledList s xs ys → ScaledBy s (.arr xs) (.arr ys)
  | objS : ∀ s kvs kvs', ScaledObj s kvs kvs' → ScaledBy s (.obj kvs) (.obj kvs')

/-- Elementwise `ScaledBy` on lists. -/
inductive ScaledList : ℚ → List Json → List Json → Prop where
  | nilS : ∀ s, ScaledList s [] []
  | consS : ∀ s x y xs ys, ScaledBy s x y → ScaledList s xs ys →
      ScaledList s (x :: xs) (y :: ys)

/-- Keys preserved, values related by `ScaledBy`. -/
inductive ScaledObj : ℚ → List (String × Json) → List (String × Json) → Prop where
  | nilO : ∀ s, ScaledObj s [] []
  | consO : ∀ s k v w kvs kvs', ScaledBy s v w → ScaledObj s kvs kvs' →
      ScaledObj s ((k, v) :: kvs) ((k, w) :: kvs')

end

/-- The spatial sections scaled by normalize_units (parse.py line 128). -/
def spatial_sections : List String :=
  ["boundary", "components", "traces", "vias", "pours", "keepouts"]

/-- The loop of normalize_units: for each spatial section present in the
document, replace its value by the scaled value. -/
def scale_sections : List String → Obj → ℚ → Obj
  | [], data, _ => data
  | sec :: rest, data, scale =>
      scale_sections rest
        (match lookupKV data sec with
         | some v => setKey data sec (scale_value v scale)
         | none => data) scale

/-- Final step of normalize_units: if "metadata" is present, set
metadata["designUnits"] to "MILLIMETER".  The non-object branch is
unreachable from normalize_units (a non-object metadata already raised
while reading designUnits). -/
def rewrite_unit (data : Obj) : Obj :=
  match lookupKV data "metadata" with
  | some (.obj m) =>
      setKey data "metadata" (.obj (setKey m "designUnits" (.str "MILLIMETER")))
  | _ => data

/-- Body of normalize_units once the designUnits value has been read. -/
def normalize_with (data : Obj) (units : Json) : Obj × List ValidationErr :=
  match units with
  | .str "MICRON" => (rewrite_unit (scale_sections spatial_sections data MICRON_TO_MM), [])
  | .str "MILLIMETER" => (rewrite_unit (scale_sections spatial_sections data 1), [])
  | _ =>
      (data,
       [⟨ErrorCode.INVALID_UNIT_SPECIFICATION, Severity.ERROR, "$.metadata.designUnits"⟩])

/-- normalize_units from parse.py.  `data.get("metadata", {}).get("designUnits", "MICRON")`
defaults to "MICRON" when metadata or designUnits is absent; if metadata
is present but is not an object the attribute access raises
(AttributeError), modelled by `none`. -/
def normalize_units (data : Obj) : Option (Obj × List ValidationErr) :=
  match lookupKV data "metadata" with
  | some (.obj m) =>
      some (normalize_with data ((lookupKV m "designUnits").getD (.str "MICRON")))
  | none => some (normalize_with data (.str "MICRON"))
  | some _ => none

/-! ## Lemmas about dictionaries and scaling -/

theorem lookupKV_setKey_eq (d : Obj) (k : String) (v : Json) :
    lookupKV (setKey d k v) k = some v := by
  induction d with
  | nil => simp [setKey, lookupKV]
  | cons kv rest ih =>
      obtain ⟨k', v'⟩ := kv
      by_cases h : k' = k
      · simp [setKey, h, lookupKV]
      · simp [setKey, h, lookupKV, ih]

theorem lookupKV_setKey_ne (d : Obj) (k k' : String) (v : Json) (h : k' ≠ k) :
    lookupKV (setKey d k v) k' = lookupKV d k' := by
  induction d with
  | nil =>
      simp only [setKey, lookupKV]
      rw [if_neg (fun hh : k = k' => h hh.symm)]
  | cons kv rest ih =>
      obtain ⟨k0, v0⟩ := kv
      by_cases h0 : k0 = k
      · subst h0
        rw [setKey, if_pos rfl, lookupKV, lookupKV,
          if_neg (fun hh => h hh.symm), if_neg (fun hh => h hh.symm)]
      · rw [setKey, if_neg h0, lookupKV, lookupKV]
        by_cases h1 : k0 = k'
        · rw [if_pos h1, if_pos h1]
        · rw [if_neg h1, if_neg h1, ih]

mutual

theorem scale_value_scaled (s : ℚ) : ∀ v, ScaledBy s v (scale_value v s)
  | .null => by rw [scale_value]; exact ScaledBy.nullS s
  | .bool b => by rw [scale_value]; exact ScaledBy.boolS s b
  | .num q => by rw [scale_value]; exact ScaledBy.numS s q
  | .str t => by rw [scale_value]; exact ScaledBy.strS s t
  | .arr xs => by rw [scale_value]; exact ScaledBy.arrS s xs _ (scale_list_scaled s xs)
  | .obj kvs => by rw [scale_value]; exact ScaledBy.objS s kvs _ (scale_obj_scaled s kvs)

theorem scale_list_scaled (s : ℚ) : ∀ xs, ScaledList s xs (scale_list xs s)
  | [] => by rw [scale_list]; exact ScaledList.nilS s
  | x :: xs => by
      rw [scale_list]
      exact ScaledList.consS s x _ xs _ (scale_value_scaled s x) (scale_list_scaled s xs)

theorem scale_obj_scaled (s : ℚ) : ∀ kvs, ScaledObj s kvs (scale_obj kvs s)
  | [] => by rw [scale_obj]; exact ScaledObj.nilO s
  | (k, v) :: kvs => by
      rw [scale_obj]
      exact ScaledObj.consO s k v _ kvs _ (scale_value_scaled s v) (scale_obj_scaled s kvs)

end

mutual

theorem scale_value_one : ∀ v, scale_value v 1 = v
  | .null => by rw [scale_value]
  | .bool b => by rw [scale_value]
  | .num q => by rw [scale_value, mul_one]
  | .str t => by rw [scale_value]
  | .arr xs => by rw [scale_value, scale_list_one xs]
  | .obj kvs => by rw [scale_value, scale_obj_one kvs]

theorem scale_list_one : ∀ xs, scale_list xs 1 = xs
  | [] => by rw [scale_list]
  | x :: xs => by rw [scale_list, scale_value_one x, scale_list_one xs]

theorem scale_obj_one : ∀ kvs, scale_obj kvs 1 = kvs
  | [] => by rw [scale_obj]
  | (k, v) :: kvs => by rw [scale_obj, scale_value_one v, scale_obj_one kvs]

end

theorem scale_sections_lookup :
    ∀ (secs : List String), secs.Nodup → ∀ (data : Obj) (scale : ℚ) (k : String),
      lookupKV (scale_sections secs data scale) k =
        if k ∈ secs then (lookupKV data k).map (fun v => scale_value v scale)
        else lookupKV data k
  | [], _, data, scale, k => by simp [scale_sections]
  | s :: rest, hnd, data, scale, k => by
      rw [List.nodup_cons] at hnd
      obtain ⟨hs, hrest⟩ := hnd
      rw [scale_sections, scale_sections_lookup rest hrest]
      have hstep : lookupKV
          (match lookupKV data s with
           | some v => setKey data s (scale_value v scale)
           | none => data) k =
          if k = s then (lookupKV data k).map (fun v => scale_value v scale)
          else lookupKV data k := by
        cases hdv : lookupKV data s with
        | none =>
            by_cases hks : k = s
            · subst hks
              rw [if_pos rfl, hdv]
              rfl
            · rw [if_neg hks]
        | some v =>
            by_cases hks : k = s
            · subst hks
              rw [if_pos rfl, lookupKV_setKey_eq, hdv]
              rfl
            · rw [if_neg hks, lookupKV_setKey_ne _ _ _ _ hks]
      rw [hstep]
      by_cases hk : k ∈ rest
      · have hks : k ≠ s := fun h => hs (h ▸ hk)
        rw [if_pos hk, if_neg hks, if_pos (List.mem_cons_of_mem s hk)]
      · by_cases hks : k = s
        · rw [if_neg hk, if_pos hks, if_pos (by rw [hks]; exact List.mem_cons_self s rest)]
        · rw [if_neg hk, if_neg hks, if_neg (by simp [hks, hk])]

theorem metadata_not_spatial : "metadata" ∉ spatial_sections := by decide

theorem spatial_sections_nodup : spatial_sections.Nodup := by decide

/-! ## Claim theorems: unit normalization -/

/-- C1: for documents whose metadata.designUnits is "MICRON",
normalize_units multiplies every numeric value under the spatial
sections by 0.001 (booleans and non-numeric values unchanged) and
rewrites the unit to "MILLIMETER"; for "MILLIMETER" every numeric value
is scaled by 1.0, i.e. unchanged, and the unit is likewise rewritten.
Keys outside the spatial sections and metadata are untouched. -/
theorem claim_C1 (data m : Obj) (units : String) (s : ℚ)
    (hm : lookupKV data "metadata" = some (.obj m))
    (hu : lookupKV m "designUnits" = some (.str units))
    (hs : (units = "MICRON" ∧ s = MICRON_TO_MM) ∨ (units = "MILLIMETER" ∧ s = 1)) :
    ∃ data',
      normalize_units data = some (data', []) ∧
      (∀ k ∈ spatial_sections, ∀ v, lookupKV data k = some v →
          lookupKV data' k = some (scale_value v s) ∧ ScaledBy s v (scale_value v s)) ∧
      (s = 1 → ∀ v, scale_value v s = v) ∧
      (∀ k, k ∉ spatial_sections → k ≠ "metadata" → lookupKV data' k = lookupKV data k) ∧
      (∃ m', lookupKV data' "metadata" = some (.obj m') ∧
        lookupKV m' "designUnits" = some (.str "MILLIMETER")) := by
  have key : ∀ sc : ℚ,
      (∀ k ∈ spatial_sections, ∀ v, lookupKV data k = some v →
          lookupKV (rewrite_unit (scale_sections spatial_sections data sc)) k =
            some (scale_value v sc) ∧ ScaledBy sc v (scale_value v sc)) ∧
      (∀ k, k ∉ spatial_sections → k ≠ "metadata" →
          lookupKV (rewrite_unit (scale_sections spatial_sections data sc)) k =
            lookupKV data k) ∧
      (∃ m', lookupKV (rewrite_unit (scale_sections spatial_sections data sc)) "metadata" =
          some (.obj m') ∧ lookupKV m' "designUnits" = some (.str "MILLIMETER")) := by
    intro sc
    have hmd : lookupKV (scale_sections spatial_sections data sc) "metadata" =
        lookupKV data "metadata" := by
      rw [scale_sections_lookup spatial_sections spatial_sections_nodup]
      simp [metadata_not_spatial]
    have hrw : rewrite_unit (scale_sections spatial_sections data sc) =
        setKey (scale_sections spatial_sections data sc) "metadata"
          (.obj (setKey m "designUnits" (.str "MILLIMETER"))) := by
      rw [rewrite_unit, hmd, hm]
    refine ⟨?_, ?_, ?_⟩
    · intro k hk v hv
      have hkm : k ≠ "metadata" := fun h => metadata_not_spatial (h ▸ hk)
      rw [hrw, lookupKV_setKey_ne _ _ _ _ hkm,
        scale_sections_lookup spatial_sections spatial_sections_nodup]
      simp [hk, hv]
      exact scale_value_scaled sc v
    · intro k hk hkm
      rw [hrw, lookupKV_setKey_ne _ _ _ _ hkm,
        scale_sections_lookup spatial_sections spatial_sections_nodup]
      simp [hk]
    · exact ⟨setKey m "designUnits" (.str "MILLIMETER"),
        by rw [hrw, lookupKV_setKey_eq], lookupKV_setKey_eq m _ _⟩
  have hnu : normalize_units data =
      some (normalize_with data ((lookupKV m "designUnits").getD (.str "MICRON"))) := by
    rw [normalize_units.eq_def, hm]
  rcases hs with ⟨hu1, hs1⟩ | ⟨hu1, hs1⟩ <;> subst hu1 <;> subst hs1
  · refine ⟨rewrite_unit (scale_sections spatial_sections data MICRON_TO_MM), ?_, ?_⟩
    · rw [hnu, hu]
      rfl
    · obtain ⟨h1, h2, h3⟩ := key MICRON_TO_MM
      exact ⟨h1, by intro h; exact absurd h (by norm_num [MICRON_TO_MM]), h2, h3⟩
  · refine ⟨rewrite_unit (scale_sections spatial_sections data 1), ?_, ?_⟩
    · rw [hnu, hu]
      rfl
    · obtain ⟨h1, h2, h3⟩ := key 1
      exact ⟨h1, fun _ => scale_value_one, h2, h3⟩

/-- Witness document for C1: a MICRON document with a boundary section. -/
def c1doc : Obj :=
  [("metadata", .obj [("designUnits", .str "MICRON")]),
   ("boundary", .obj [("coordinates", .arr [.num 0, .num 0, .num 1000, .num 0, .num 1000, .num 1000])])]

/-- Witness for C1 at a concrete MICRON document. -/
theorem claim_C1_witness :
    ∃ data',
      normalize_units c1doc = some (data', []) ∧
      (∀ k ∈ spatial_sections, ∀ v, lookupKV c1doc k = some v →
          lookupKV data' k = some (scale_value v MICRON_TO_MM) ∧
            ScaledBy MICRON_TO_MM v (scale_value v MICRON_TO_MM)) ∧
      (MICRON_TO_MM = 1 → ∀ v, scale_value v MICRON_TO_MM = v) ∧
      (∀ k, k ∉ spatial_sections → k ≠ "metadata" → lookupKV data' k = lookupKV c1doc k) ∧
      (∃ m', lookupKV data' "metadata" = some (.obj m') ∧
        lookupKV m' "designUnits" = some (.str "MILLIMETER")) :=
  claim_C1 c1doc [("designUnits", .str "MICRON")] "MICRON" MICRON_TO_MM rfl rfl
    (Or.inl ⟨rfl, rfl⟩)

/-- C10: when metadata is absent, or metadata.designUnits is absent,
normalize_units reports no defect and silently scales every numeric
value of the spatial sections by 0.001 (the MICRON default). -/
theorem claim_C10 (data : Obj)
    (h : lookupKV data "metadata" = none ∨
      ∃ m, lookupKV data "metadata" = some (.obj m) ∧ lookupKV m "designUnits" = none) :
    ∃ data',
      normalize_units data = some (data', []) ∧
      (∀ k ∈ spatial_sections, ∀ v, lookupKV data k = some v →
          lookupKV data' k = some (scale_value v MICRON_TO_MM) ∧
            ScaledBy MICRON_TO_MM v (scale_value v MICRON_TO_MM)) ∧
      (∀ k, k ∉ spatial_sections → k ≠ "metadata" → lookupKV data' k = lookupKV data k) := by
  have hsec : ∀ k ∈ spatial_sections, ∀ v, lookupKV data k = some v →
      lookupKV (scale_sections spatial_sections data MICRON_TO_MM) k =
        some (scale_value v MICRON_TO_MM) ∧
        ScaledBy MICRON_TO_MM v (scale_value v MICRON_TO_MM) := by
    intro k hk v hv
    rw [scale_sections_lookup spatial_sections spatial_sections_nodup]
    simp [hk, hv]
    exact scale_value_scaled MICRON_TO_MM v
  have hoth : ∀ k, k ∉ spatial_sections →
      lookupKV (scale_sections spatial_sections data MICRON_TO_MM) k = lookupKV data k := by
    intro k hk
    rw [scale_sections_lookup spatial_sections spatial_sections_nodup]
    simp [hk]
  rcases h with hnone | ⟨m, hm, hdu⟩
  · refine ⟨rewrite_unit (scale_sections spatial_sections data MICRON_TO_MM), ?_, ?_, ?_⟩
    · rw [normalize_units.eq_def, hnone]
      rfl
    · intro k hk v hv
      have hkm : k ≠ "metadata" := fun hh => metadata_not_spatial (hh ▸ hk)
      have hrw : rewrite_unit (scale_sections spatial_sections data MICRON_TO_MM) =
          scale_sections spatial_sections data MICRON_TO_MM := by
        rw [rewrite_unit, hoth "metadata" metadata_not_spatial, hnone]
      rw [hrw]
      exact hsec k hk v hv
    · intro k hk hkm
      have hrw : rewrite_unit (scale_sections spatial_sections data MICRON_TO_MM) =
          scale_sections spatial_sections data MICRON_TO_MM := by
        rw [rewrite_unit, hoth "metadata" metadata_not_spatial, hnone]
      rw [hrw]
      exact hoth k hk
  · refine ⟨rewrite_unit (scale_sections spatial_sections data MICRON_TO_MM), ?_, ?_, ?_⟩
    · have hnu : normalize_units data =
          some (normalize_with data ((lookupKV m "designUnits").getD (.str "MICRON"))) := by
        rw [normalize_units.eq_def, hm]
      rw [hnu, hdu]
      rfl
    · intro k hk v hv
      have hkm : k ≠ "metadata" := fun hh => metadata_not_spatial (hh ▸ hk)
      have hrw : rewrite_unit (scale_sections spatial_sections data MICRON_TO_MM) =
          setKey (scale_sections spatial_sections data MICRON_TO_MM) "metadata"
            (.obj (setKey m "designUnits" (.str "MILLIMETER"))) := by
        rw [rewrite_unit, hoth "metadata" metadata_not_spatial, hm]
      rw [hrw, lookupKV_setKey_ne _ _ _ _ hkm]
      exact hsec k hk v hv
    · intro k hk hkm
      have hrw : rewrite_unit (scale_sections spatial_sections data MICRON_TO_MM) =
          setKey (scale_sections spatial_sections data MICRON_TO_MM) "metadata"
            (.obj (setKey m "designUnits" (.str "MILLIMETER"))) := by
        rw [rewrite_unit, hoth "metadata" metadata_not_spatial, hm]
      rw [hrw, lookupKV_setKey_ne _ _ _ _ hkm]
      exact hoth k hk

/-- Witness document for C10: designUnits missing from metadata. -/
def c10doc : Obj :=
  [("metadata", .obj [("title", .str "demo")]),
   ("vias", .obj [("v1", .obj [("center", .arr [.num 2000, .num 3000])])])]

/-- Witness for C10 at a concrete document with no designUnits. -/
theorem claim_C10_witness :
    ∃ data',
      normalize_units c10doc = some (data', []) ∧
      (∀ k ∈ spatial_sections, ∀ v, lookupKV c10doc k = some v →
          lookupKV data' k = some (scale_value v MICRON_TO_MM) ∧
            ScaledBy MICRON_TO_MM v (scale_value v MICRON_TO_MM)) ∧
      (∀ k, k ∉ spatial_sections → k ≠ "metadata" → lookupKV data' k = lookupKV c10doc k) :=
  claim_C10 c10doc (Or.inr ⟨[("title", .str "demo")], rfl, rfl⟩)

/-! ## Geometric primitives (geometry.py) -/

/-- Point model: pair of coordinates.  The finiteness validator of the
source rejects NaN and infinity, which do not exist for rationals, so
the model carries no side condition. -/
structure Point : Type where
  x : ℚ
  y : ℚ
deriving DecidableEq, Repr

/-- Polygon model: the list of vertices.  Construction goes through
`mkPolygon` below; validate_board can also receive polygons built by
test fixtures, so the structure itself carries no invariant. -/
structure Polygon : Type where
  points : List Point
deriving DecidableEq, Repr

/-- Polyline model: an open path; no minimum length is enforced at
construction (MALFORMED_TRACE is detected later by validation). -/
structure Polyline : Type where
  points : List Point
deriving DecidableEq, Repr

/-- Circle model. -/
structure Circle : Type where
  center : Point
  radius : ℚ
deriving DecidableEq, Repr

/-- Polygon construction, geometry.py Polygon.validate_polygon (plus the
pydantic min_length=3 constraint): fewer than 3 points is rejected
(pydantic ValidationError, a ValueError subclass), and an open ring is
auto-closed by appending the first point. -/
def mkPolygon (pts : List Point) : Except PyErr Polygon :=
  if pts.length < 3 then .error (.valueError "Polygon must have at least 3 points")
  else
    match pts with
    | [] => .error (.valueError "Polygon must have at least 3 points")
    | p :: rest =>
        if (p :: rest).getLast? = some p then .ok ⟨p :: rest⟩
        else .ok ⟨(p :: rest) ++ [p]⟩

/-- Circle construction, geometry.py Circle.validate_radius: the radius
must be positive (finiteness is automatic for rationals). -/
def mkCircle (c : Point) (r : ℚ) : Except PyErr Circle :=
  if r ≤ 0 then .error (.valueError "Radius must be positive") else .ok ⟨c, r⟩

/-! ## Coordinate parsing (parse.py: parse_coordinates) -/

/-- Validation of one coordinate by the pydantic float field of Point.
Numbers are accepted; booleans are rejected by pydantic v2; null,
arrays and objects are rejected.  (pydantic lax mode would additionally
coerce a numeric string: every theorem below quantifies only over
documents whose coordinate atoms are numbers, booleans or arrays, for
which this model is exact.) -/
def pointCoord (v : Json) : Except PyErr ℚ :=
  match v with
  | .num q => .ok q
  | _ => .error (.valueError "value is not a valid float")

/-- The Python test `isinstance(c, (int, float))`: true for numbers and
also for booleans, since Python bool is a subclass of int. -/
def is_number_like (v : Json) : Bool :=
  match v with
  | .num _ => true
  | .bool _ => true
  | _ => false

/-- The Python test `isinstance(c, (list, tuple)) and len(c) == 2`. -/
def is_pair (v : Json) : Bool :=
  match v with
  | .arr l => l.length == 2
  | _ => false

/-- Flat branch of parse_coordinates:
`[Point(x=raw[i], y=raw[i+1]) for i in range(0, len(raw), 2)]`.
The singleton branch is unreachable (even length was checked first). -/
def flat_points : List Json → Except PyErr (List Point)
  | [] => .ok []
  | a :: b :: rest => do
      let x ← pointCoord a
      let y ← pointCoord b
      let ps ← flat_points rest
      .ok (⟨x, y⟩ :: ps)
  | [_] => .error (.indexError "list index out of range")

/-- Nested branch of parse_coordinates:
`[Point(x=c[0], y=c[1]) for c in raw]`.  The catch-all branch is
unreachable (every element passed the 2-element-array check). -/
def nested_points : List Json → Except PyErr (List Point)
  | [] => .ok []
  | c :: rest =>
      match c with
      | .arr (a :: b :: _) => do
          let x ← pointCoord a
          let y ← pointCoord b
          let ps ← nested_points rest
          .ok (⟨x, y⟩ :: ps)
      | _ => .error (.indexError "list index out of range")

/-- parse_coordinates from parse.py.  A falsy argument ("if not raw")
raises ValueError("Empty coordinate array"); a string or dict iterates
to characters or keys, failing both format checks (ValueError); a
non-zero number or true is not iterable (TypeError). -/
def parse_coordinates (raw : Json) : Except PyErr (List Point) :=
  if jsonFalsy raw then .error (.valueError "Empty coordinate array")
  else
    match raw with
    | .arr items =>
        if items.all is_number_like then
          if items.length % 2 ≠ 0 then
            .error (.valueError "Flat coordinate list must have even length")
          else flat_points items
        else if items.all is_pair then nested_points items
        else .error (.valueError "Unrecognized coordinate format")
    | .str _ => .error (.valueError "Unrecognized coordinate format")
    | .obj _ => .error (.valueError "Unrecognized coordinate format")
    | _ => .error (.typeError "object is not iterable")

/-! ## Lemmas for parse_coordinates -/

/-- The flat encoding [x1, y1, x2, y2, ...] of a list of points. -/
def flat_json : List (ℚ × ℚ) → List Json
  | [] => []
  | (a, b) :: rest => .num a :: .num b :: flat_json rest

/-- The nested encoding [[x1, y1], [x2, y2], ...] of a list of points. -/
def nested_json (qs : List (ℚ × ℚ)) : List Json :=
  qs.map (fun p => .arr [.num p.1, .num p.2])

/-- The Point list both encodings describe. -/
def points_of (qs : List (ℚ × ℚ)) : List Point :=
  qs.map (fun p => ⟨p.1, p.2⟩)

theorem flat_json_length : ∀ qs : List (ℚ × ℚ), (flat_json qs).length = 2 * qs.length
  | [] => rfl
  | (a, b) :: rest => by
      rw [flat_json, List.length_cons, List.length_cons, flat_json_length rest,
        List.length_cons]
      ring

theorem flat_json_all_num :
    ∀ qs : List (ℚ × ℚ), ∀ v ∈ flat_json qs, ∃ q, v = Json.num q
  | [], v, hv => absurd hv (by simp [flat_json])
  | (a, b) :: rest, v, hv => by
      rw [flat_json] at hv
      rcases List.mem_cons.mp hv with h | hv2
      · exact ⟨a, h⟩
      rcases List.mem_cons.mp hv2 with h | h
      · exact ⟨b, h⟩
      · exact flat_json_all_num rest v h

theorem flat_points_flat_json :
    ∀ qs : List (ℚ × ℚ), flat_points (flat_json qs) = .ok (points_of qs)
  | [] => rfl
  | (a, b) :: rest => by
      show (do
        let x ← pointCoord (.num a)
        let y ← pointCoord (.num b)
        let ps ← flat_points (flat_json rest)
        Except.ok (⟨x, y⟩ :: ps)) = Except.ok (points_of ((a, b) :: rest))
      rw [flat_points_flat_json rest]
      rfl

theorem nested_points_nested_json :
    ∀ qs : List (ℚ × ℚ), nested_points (nested_json qs) = .ok (points_of qs)
  | [] => rfl
  | (a, b) :: rest => by
      show (do
        let x ← pointCoord (.num a)
        let y ← pointCoord (.num b)
        let ps ← nested_points (nested_json rest)
        Except.ok (⟨x, y⟩ :: ps)) = Except.ok (points_of ((a, b) :: rest))
      rw [nested_points_nested_json rest]
      rfl

theorem all_num_all_number_like (items : List Json)
    (h : ∀ v ∈ items, ∃ q, v = Json.num q) : items.all is_number_like = true := by
  rw [List.all_eq_true]
  intro v hv
  obtain ⟨q, rfl⟩ := h v hv
  rfl

theorem flat_points_some :
    ∀ items : List Json, items.length % 2 = 0 → (∀ v ∈ items, ∃ q, v = Json.num q) →
      ∃ ps, flat_points items = .ok ps
  | [], _, _ => ⟨[], rfl⟩
  | [a], hlen, _ => by simp at hlen
  | a :: b :: rest, hlen, hall => by
      obtain ⟨qa, ha⟩ := hall a (by simp)
      obtain ⟨qb, hb⟩ := hall b (by simp)
      subst ha
      subst hb
      obtain ⟨ps, hps⟩ := flat_points_some rest
        (by rw [List.length_cons, List.length_cons] at hlen; omega)
        (fun v hv => hall v (by simp [hv]))
      refine ⟨⟨qa, qb⟩ :: ps, ?_⟩
      show (do
        let x ← pointCoord (.num qa)
        let y ← pointCoord (.num qb)
        let ps ← flat_points rest
        Except.ok (⟨x, y⟩ :: ps)) = Except.ok (⟨qa, qb⟩ :: ps)
      rw [hps]
      rfl

theorem nested_points_some :
    ∀ items : List Json, (∀ v ∈ items, ∃ a b : ℚ, v = Json.arr [.num a, .num b]) →
      ∃ ps, nested_points items = .ok ps
  | [], _ => ⟨[], rfl⟩
  | c :: rest, hall => by
      obtain ⟨a, b, hc⟩ := hall c (by simp)
      subst hc
      obtain ⟨ps, hps⟩ := nested_points_some rest (fun v hv => hall v (by simp [hv]))
      refine ⟨⟨a, b⟩ :: ps, ?_⟩
      show (do
        let x ← pointCoord (.num a)
        let y ← pointCoord (.num b)
        let ps ← nested_points rest
        Except.ok (⟨x, y⟩ :: ps)) = Except.ok (⟨a, b⟩ :: ps)
      rw [hps]
      rfl

theorem arr_not_falsy (items : List Json) (h : items ≠ []) :
    jsonFalsy (.arr items) = false := by
  cases items with
  | nil => exact absurd rfl h
  | cons a rest => rfl

theorem parse_coordinates_arr (items : List Json) (h : items ≠ []) :
    parse_coordinates (.arr items) =
      if items.all is_number_like then
        if items.length % 2 ≠ 0 then
          .error (.valueError "Flat coordinate list must have even length")
        else flat_points items
      else if items.all is_pair then nested_points items
      else .error (.valueError "Unrecognized coordinate format") := by
  rw [parse_coordinates]
  rw [if_neg (by rw [arr_not_falsy items h]; exact Bool.false_ne_true)]

/-- C7: parse_coordinates maps the flat encoding and the nested
encoding of the same nonempty point list to equal Point sequences, and
(over documents whose elements are numbers or arrays of numbers, where
the pydantic coercion rules play no role) raises a ValueError exactly
when the sequence is empty, is an all-numeric sequence of odd length,
or is neither all-numeric nor a sequence of 2-element pairs.  The
embedded function is pure, mirroring the source, which only reads its
argument. -/
theorem claim_C7 (qs : List (ℚ × ℚ)) (hqs : qs ≠ [])
    (items : List Json)
    (hdom : ∀ v ∈ items, (∃ q, v = Json.num q) ∨
      ∃ l, v = Json.arr l ∧ ∀ u ∈ l, ∃ q, u = Json.num q) :
    (parse_coordinates (.arr (flat_json qs)) = .ok (points_of qs) ∧
     parse_coordinates (.arr (nested_json qs)) = .ok (points_of qs)) ∧
    ((∃ m, parse_coordinates (.arr items) = .error (.valueError m)) ↔
      (items = [] ∨
       ((∀ v ∈ items, ∃ q, v = Json.num q) ∧ items.length % 2 = 1) ∨
       (¬ (∀ v ∈ items, ∃ q, v = Json.num q) ∧
        ¬ (∀ v ∈ items, ∃ a b, v = Json.arr [a, b])))) := by
  obtain ⟨q0, qs0, rfl⟩ : ∃ q0 qs0, qs = q0 :: qs0 := by
    cases qs with
    | nil => exact absurd rfl hqs
    | cons q0 qs0 => exact ⟨q0, qs0, rfl⟩
  constructor
  · constructor
    · rw [parse_coordinates_arr _ (by obtain ⟨a, b⟩ := q0; simp [flat_json])]
      rw [if_pos (all_num_all_number_like _ (flat_json_all_num _))]
      rw [if_neg (by rw [flat_json_length]; omega)]
      exact flat_points_flat_json _
    · rw [parse_coordinates_arr _ (by simp [nested_json])]
      rw [if_neg (by obtain ⟨a, b⟩ := q0; simp [nested_json, is_number_like])]
      rw [if_pos (by
        rw [List.all_eq_true]
        intro v hv
        rw [nested_json, List.mem_map] at hv
        obtain ⟨p, _, rfl⟩ := hv
        rfl)]
      exact nested_points_nested_json _
  · by_cases he : items = []
    · subst he
      constructor
      · intro _
        exact Or.inl rfl
      · intro _
        exact ⟨"Empty coordinate array", rfl⟩
    · rw [parse_coordinates_arr items he]
      by_cases hnum : ∀ v ∈ items, ∃ q, v = Json.num q
      · rw [if_pos (all_num_all_number_like items hnum)]
        by_cases hodd : items.length % 2 = 1
        · rw [if_pos (by omega)]
          constructor
          · intro _
            exact Or.inr (Or.inl ⟨hnum, hodd⟩)
          · intro _
            exact ⟨_, rfl⟩
        · rw [if_neg (by omega)]
          obtain ⟨ps, hps⟩ := flat_points_some items (by omega) hnum
          rw [hps]
          constructor
          · rintro ⟨m, hm⟩
            exact absurd hm (by simp)
          · rintro (h | ⟨_, h⟩ | ⟨h, _⟩)
            · exact absurd h he
            · exact absurd h hodd
            · exact absurd hnum h
      · have hnum' := hnum
        push_neg at hnum'
        obtain ⟨v, hvm, hvn⟩ := hnum'
        have hnl : items.all is_number_like = false := by
          rcases hdom v hvm with ⟨q, hq⟩ | ⟨l, rfl, _⟩
          · exact absurd hq (hvn q)
          · cases hb : items.all is_number_like with
            | false => rfl
            | true =>
                rw [List.all_eq_true] at hb
                exact absurd (hb _ hvm) (by simp [is_number_like])
        rw [if_neg (by rw [hnl]; exact Bool.false_ne_true)]
        by_cases hpair : ∀ v ∈ items, ∃ a b, v = Json.arr [a, b]
        · rw [if_pos (by
            rw [List.all_eq_true]
            intro v hv
            obtain ⟨a, b, rfl⟩ := hpair v hv
            rfl)]
          obtain ⟨ps, hps⟩ := nested_points_some items (by
            intro v hv
            obtain ⟨a, b, hab⟩ := hpair v hv
            rcases hdom v hv with ⟨q, hq⟩ | ⟨l, hl, hnums⟩
            · rw [hq] at hab
              exact absurd hab (by simp)
            · rw [hl] at hab
              obtain rfl : l = [a, b] := by injection hab
              obtain ⟨qa, rfl⟩ := hnums a (by simp)
              obtain ⟨qb, rfl⟩ := hnums b (by simp)
              exact ⟨qa, qb, hl⟩)
          rw [hps]
          constructor
          · rintro ⟨m, hm⟩
            exact absurd hm (by simp)
          · rintro (h | ⟨h, _⟩ | ⟨_, h⟩)
            · exact absurd h he
            · exact absurd h hnum
            · exact absurd hpair h
        · have hpair' := hpair
          push_neg at hpair'
          obtain ⟨v, hvm, hvp⟩ := hpair'
          rw [if_neg (by
            cases hb : items.all is_pair with
            | false => exact Bool.false_ne_true
            | true =>
                exfalso
                rw [List.all_eq_true] at hb
                have hpv := hb _ hvm
                rcases hdom v hvm with ⟨q, rfl⟩ | ⟨l, rfl, _⟩
                · exact absurd hpv (by simp [is_pair])
                · rw [is_pair] at hpv
                  have hl2 : l.length = 2 := by simpa using hpv
                  obtain ⟨a, b, rfl⟩ : ∃ a b, l = [a, b] := by
                    cases l with
                    | nil => simp at hl2
                    | cons a t =>
                        cases t with
                        | nil => simp at hl2
                        | cons b t2 =>
                            cases t2 with
                            | nil => exact ⟨a, b, rfl⟩
                            | cons c t3 => simp at hl2
                  exact hvp a b rfl)]
          constructor
          · intro _
            exact Or.inr (Or.inr ⟨hnum, hpair⟩)
          · intro _
            exact ⟨_, rfl⟩

/-- Witness inputs for C7. -/
def c7flat : List (ℚ × ℚ) := [(1, 2), (3, 4)]

/-- Witness for C7: the two encodings of [(1,2),(3,4)] parse to the same
points, and a one-element flat list raises exactly as characterized. -/
theorem claim_C7_witness :
    (parse_coordinates (.arr (flat_json c7flat)) = .ok (points_of c7flat) ∧
     parse_coordinates (.arr (nested_json c7flat)) = .ok (points_of c7flat)) ∧
    ((∃ m, parse_coordinates (.arr [Json.num 5]) = .error (.valueError m)) ↔
      ([Json.num 5] = ([] : List Json) ∨
       ((∀ v ∈ [Json.num 5], ∃ q, v = Json.num q) ∧ [Json.num 5].length % 2 = 1) ∨
       (¬ (∀ v ∈ [Json.num 5], ∃ q, v = Json.num q) ∧
        ¬ (∀ v ∈ [Json.num 5], ∃ a b, v = Json.arr [a, b])))) :=
  claim_C7 c7flat (by simp [c7flat]) [Json.num 5]
    (fun v hv => Or.inl ⟨5, List.mem_singleton.mp hv⟩)

/-! ## Claim C9: polygon auto-closing -/

/-- C9: a Polygon built from at least 3 points is closed (first point
equals last); an open ring gets the first point appended exactly once;
an already-closed ring is left as is; fewer than 3 points is rejected. -/
theorem claim_C9 (pts : List Point) :
    (∀ p q, pts.head? = some p → pts.getLast? = some q → 3 ≤ pts.length →
      ∃ poly, mkPolygon pts = .ok poly ∧
        poly.points.head? = poly.points.getLast? ∧
        (q ≠ p → poly.points = pts ++ [p]) ∧
        (q = p → poly.points = pts)) ∧
    (pts.length < 3 → ∃ m, mkPolygon pts = .error (.valueError m)) := by
  constructor
  · cases pts with
    | nil =>
        intro p q hp hq hlen
        simp at hp
    | cons p0 rest =>
        intro p q hp hq hlen
        rw [List.head?_cons] at hp
        injection hp with hp0
        subst hp0
        have hmk : mkPolygon (p0 :: rest) =
            (if (p0 :: rest).getLast? = some p0 then Except.ok (⟨p0 :: rest⟩ : Polygon)
             else Except.ok ⟨(p0 :: rest) ++ [p0]⟩) := by
          rw [mkPolygon.eq_def, if_neg (by omega)]
        rw [hmk]
        by_cases hlast : (p0 :: rest).getLast? = some p0
        · have hqp0 : q = p0 := by
            rw [hlast] at hq
            injection hq with hq2
            exact hq2.symm
          rw [if_pos hlast]
          refine ⟨⟨p0 :: rest⟩, rfl, ?_, fun hne => absurd hqp0 hne, fun _ => rfl⟩
          rw [hlast, List.head?_cons]
        · rw [if_neg hlast]
          refine ⟨⟨(p0 :: rest) ++ [p0]⟩, rfl, ?_, fun _ => rfl, fun hqp => ?_⟩
          · rw [List.getLast?_concat]
            rfl
          · rw [hqp] at hq
            exact absurd hq hlast
  · intro hlen
    refine ⟨"Polygon must have at least 3 points", ?_⟩
    rw [mkPolygon.eq_def, if_pos hlen]

/-- Open witness ring for C9. -/
def c9open : List Point := [⟨0, 0⟩, ⟨4, 0⟩, ⟨0, 4⟩]

/-- Witness for C9: the open triangle gets closed by appending its
first point, and a single point is rejected. -/
theorem claim_C9_witness :
    (∃ poly, mkPolygon c9open = .ok poly ∧
      poly.points.head? = poly.points.getLast? ∧
      ((⟨0, 4⟩ : Point) ≠ ⟨0, 0⟩ → poly.points = c9open ++ [⟨0, 0⟩]) ∧
      ((⟨0, 4⟩ : Point) = ⟨0, 0⟩ → poly.points = c9open)) ∧
    (∃ m, mkPolygon [(⟨0, 0⟩ : Point)] = .error (.valueError m)) :=
  ⟨(claim_C9 c9open).1 ⟨0, 0⟩ ⟨0, 4⟩ rfl rfl (by decide),
   (claim_C9 [⟨0, 0⟩]).2 (by decide)⟩

end PCB

namespace PCB

/-! ## Self-intersection test (validate.py: is_self_intersecting) -/

/-- Signed orientation of the triplet (p, q, r), validate.py line 345. -/
def orient (p q r : Point) : ℚ :=
  (q.y - p.y) * (r.x - q.x) - (q.x - p.x) * (r.y - q.y)

/-- on_segment from validate.py: q within the bounding box of p and r. -/
def on_segment (p q r : Point) : Bool :=
  decide (min p.x r.x ≤ q.x ∧ q.x ≤ max p.x r.x ∧
    min p.y r.y ≤ q.y ∧ q.y ≤ max p.y r.y)

/-- segments_intersect from validate.py: the four-orientation straddle
test followed by the four collinear bounding-box cases. -/
def segments_intersect (a1 a2 b1 b2 : Point) : Bool :=
  if orient a1 a2 b1 * orient a1 a2 b2 < 0 ∧
      orient b1 b2 a1 * orient b1 b2 a2 < 0 then true
  else if orient a1 a2 b1 = 0 ∧ on_segment a1 b1 a2 then true
  else if orient a1 a2 b2 = 0 ∧ on_segment a1 b2 a2 then true
  else if orient b1 b2 a1 = 0 ∧ on_segment b1 a1 b2 then true
  else if orient b1 b2 a2 = 0 ∧ on_segment b1 a2 b2 then true
  else false

/-- Polygon.edges from geometry.py: consecutive (start, end) pairs. -/
def Polygon.edges (poly : Polygon) : List (Point × Point) :=
  poly.points.zip poly.points.tail

/-- One iteration of the inner loop of is_self_intersecting: skip pairs
sharing an endpoint by value, otherwise run the segment test. -/
def edge_pair_check (e f : Point × Point) : Bool :=
  if e.1 = f.1 ∨ e.1 = f.2 ∨ e.2 = f.1 ∨ e.2 = f.2 then false
  else segments_intersect e.1 e.2 f.1 f.2

/-- The double loop of is_self_intersecting over edge pairs i < j. -/
def pairs_any : List (Point × Point) → Bool
  | [] => false
  | e :: rest => rest.any (edge_pair_check e) || pairs_any rest

/-- is_self_intersecting from validate.py. -/
def is_self_intersecting (poly : Polygon) : Bool :=
  pairs_any poly.edges

/-! ## Claim C8: convex polygons and the bowtie -/

/-- Strict convexity of a vertex ring, in the orientation sign
convention of the source (`orient` is positive for one turning
direction): every ring vertex not an endpoint of an edge lies strictly
on the positive side of that edge. -/
def ConvexPos (ps : List Point) : Prop :=
  ∀ e ∈ ps.zip ps.tail, ∀ r ∈ ps, r ≠ e.1 → r ≠ e.2 → 0 < orient e.1 e.2 r

/-- Strict convexity with the opposite turning direction. -/
def ConvexNeg (ps : List Point) : Prop :=
  ∀ e ∈ ps.zip ps.tail, ∀ r ∈ ps, r ≠ e.1 → r ≠ e.2 → orient e.1 e.2 r < 0

theorem segments_intersect_pos (a1 a2 b1 b2 : Point)
    (h1 : 0 < orient a1 a2 b1) (h2 : 0 < orient a1 a2 b2)
    (h3 : 0 < orient b1 b2 a1) (h4 : 0 < orient b1 b2 a2) :
    segments_intersect a1 a2 b1 b2 = false := by
  rw [segments_intersect,
    if_neg (fun hh => absurd hh.1 (not_lt.mpr (mul_pos h1 h2).le)),
    if_neg (fun hh => absurd hh.1 (ne_of_gt h1)),
    if_neg (fun hh => absurd hh.1 (ne_of_gt h2)),
    if_neg (fun hh => absurd hh.1 (ne_of_gt h3)),
    if_neg (fun hh => absurd hh.1 (ne_of_gt h4))]

theorem segments_intersect_neg (a1 a2 b1 b2 : Point)
    (h1 : orient a1 a2 b1 < 0) (h2 : orient a1 a2 b2 < 0)
    (h3 : orient b1 b2 a1 < 0) (h4 : orient b1 b2 a2 < 0) :
    segments_intersect a1 a2 b1 b2 = false := by
  rw [segments_intersect,
    if_neg (fun hh => absurd hh.1 (not_lt.mpr (mul_pos_of_neg_of_neg h1 h2).le)),
    if_neg (fun hh => absurd hh.1 (ne_of_lt h1)),
    if_neg (fun hh => absurd hh.1 (ne_of_lt h2)),
    if_neg (fun hh => absurd hh.1 (ne_of_lt h3)),
    if_neg (fun hh => absurd hh.1 (ne_of_lt h4))]

theorem pairs_any_false (es : List (Point × Point))
    (h : ∀ e ∈ es, ∀ f ∈ es, edge_pair_check e f = false) : pairs_any es = false := by
  induction es with
  | nil => rfl
  | cons e rest ih =>
      have hany : rest.any (edge_pair_check e) = false := by
        rw [List.any_eq_false]
        intro f hf
        rw [h e (List.mem_cons_self e rest) f (List.mem_cons_of_mem e hf)]
        simp
      rw [pairs_any, hany, Bool.false_or]
      exact ih (fun a ha b hb =>
        h a (List.mem_cons_of_mem e ha) b (List.mem_cons_of_mem e hb))

theorem edge_pair_check_convex_pos (ps : List Point) (hc : ConvexPos ps)
    (e f : Point × Point) (he : e ∈ ps.zip ps.tail) (hf : f ∈ ps.zip ps.tail) :
    edge_pair_check e f = false := by
  obtain ⟨a1, a2⟩ := e
  obtain ⟨b1, b2⟩ := f
  rw [edge_pair_check]
  by_cases hshare : a1 = b1 ∨ a1 = b2 ∨ a2 = b1 ∨ a2 = b2
  · rw [if_pos hshare]
  · rw [if_neg hshare]
    push_neg at hshare
    obtain ⟨h11, h12, h21, h22⟩ := hshare
    have hb1 : b1 ∈ ps := (List.of_mem_zip hf).1
    have hb2 : b2 ∈ ps := List.tail_subset ps (List.of_mem_zip hf).2
    have ha1 : a1 ∈ ps := (List.of_mem_zip he).1
    have ha2 : a2 ∈ ps := List.tail_subset ps (List.of_mem_zip he).2
    exact segments_intersect_pos a1 a2 b1 b2
      (hc ⟨a1, a2⟩ he b1 hb1 (Ne.symm h11) (Ne.symm h21))
      (hc ⟨a1, a2⟩ he b2 hb2 (Ne.symm h12) (Ne.symm h22))
      (hc ⟨b1, b2⟩ hf a1 ha1 h11 h12)
      (hc ⟨b1, b2⟩ hf a2 ha2 h21 h22)

theorem edge_pair_check_convex_neg (ps : List Point) (hc : ConvexNeg ps)
    (e f : Point × Point) (he : e ∈ ps.zip ps.tail) (hf : f ∈ ps.zip ps.tail) :
    edge_pair_check e f = false := by
  obtain ⟨a1, a2⟩ := e
  obtain ⟨b1, b2⟩ := f
  rw [edge_pair_check]
  by_cases hshare : a1 = b1 ∨ a1 = b2 ∨ a2 = b1 ∨ a2 = b2
  · rw [if_pos hshare]
  · rw [if_neg hshare]
    push_neg at hshare
    obtain ⟨h11, h12, h21, h22⟩ := hshare
    have hb1 : b1 ∈ ps := (List.of_mem_zip hf).1
    have hb2 : b2 ∈ ps := List.tail_subset ps (List.of_mem_zip hf).2
    have ha1 : a1 ∈ ps := (List.of_mem_zip he).1
    have ha2 : a2 ∈ ps := List.tail_subset ps (List.of_mem_zip he).2
    exact segments_intersect_neg a1 a2 b1 b2
      (hc ⟨a1, a2⟩ he b1 hb1 (Ne.symm h11) (Ne.symm h21))
      (hc ⟨a1, a2⟩ he b2 hb2 (Ne.symm h12) (Ne.symm h22))
      (hc ⟨b1, b2⟩ hf a1 ha1 h11 h12)
      (hc ⟨b1, b2⟩ hf a2 ha2 h21 h22)

/-- The bowtie of the claim, built from (0,0),(10,10),(10,0),(0,10)
through the Polygon constructor (which auto-closes the ring). -/
def bowtie : Polygon :=
  ((mkPolygon [⟨0, 0⟩, ⟨10, 10⟩, ⟨10, 0⟩, ⟨0, 10⟩]).toOption).getD ⟨[]⟩

/-- C8: is_self_intersecting is false for every strictly convex polygon
(either turning direction) and true for the bowtie built from
(0,0),(10,10),(10,0),(0,10). -/
theorem claim_C8 (poly : Polygon)
    (h : ConvexPos poly.points ∨ ConvexNeg poly.points) :
    is_self_intersecting poly = false ∧ is_self_intersecting bowtie = true := by
  constructor
  · rw [is_self_intersecting, Polygon.edges]
    apply pairs_any_false
    intro e he f hf
    rcases h with hc | hc
    · exact edge_pair_check_convex_pos poly.points hc e f he hf
    · exact edge_pair_check_convex_neg poly.points hc e f he hf
  · with_unfolding_all rfl

/-- A closed convex square ring for the C8 witness. -/
def c8square : Polygon := ⟨[⟨0, 0⟩, ⟨4, 0⟩, ⟨4, 4⟩, ⟨0, 4⟩, ⟨0, 0⟩]⟩

/-- Witness for C8 at the concrete convex square. -/
theorem claim_C8_witness :
    is_self_intersecting c8square = false ∧ is_self_intersecting bowtie = true :=
  claim_C8 c8square (Or.inr (by unfold ConvexNeg; with_unfolding_all decide))

end PCB

namespace PCB

/-! ## Board data model (models.py), restricted to what validate_board reads -/

/-- LayerType enum from models.py. -/
inductive LayerType : Type where
  | TOP
  | BOTTOM
  | MID
  | PLANE
  | DIELECTRIC
deriving DecidableEq, Repr

/-- Layer model from models.py. -/
structure Layer : Type where
  name : String
  layer_type : LayerType
  index : ℤ
  material : Obj

/-- Side enum from models.py. -/
inductive Side : Type where
  | FRONT
  | BACK
deriving DecidableEq, Repr

/-- Net model from models.py; net_class defaults to "SIGNAL". -/
structure Net : Type where
  name : String
  net_class : String

/-- Transform model.  The pydantic constructor constrains rotation to
[0, 360], but validate_board re-checks it because Board instances can be
mutated after construction (the spec calls this double-checking
deliberate), so the model field is unconstrained. -/
structure Transform : Type where
  position : Point
  rotation : ℚ
  side : Side

/-- Pin model from models.py. -/
structure Pin : Type where
  name : String
  comp_name : String
  net_name : Option String
  shape : Obj
  position : Point
  rotation : ℚ
  is_throughhole : Bool

/-- Component model from models.py; pins keyed by name in insertion
order, as a Python dict. -/
structure Component : Type where
  name : String
  reference : String
  footprint : String
  outline : Obj
  transform : Transform
  pins : List (String × Pin)
  user_preplaced : Bool

/-- Trace model from models.py. -/
structure Trace : Type where
  uid : String
  net_name : String
  layer_hash : String
  path : Polyline
  width : ℚ

/-- Via model from models.py; span is the Dict[str, str] layer span. -/
structure Via : Type where
  uid : String
  net_name : String
  center : Point
  diameter : ℚ
  hole_size : ℚ
  span : List (String × String)

/-- Keepout model from models.py; the shape is optional and either a
polygon or a circle. -/
structure Keepout : Type where
  uid : String
  name : String
  layer : String
  shape : Option (Polygon ⊕ Circle)
  keepout_type : String

/-- The stackup map of the Board.  The source stores a string-keyed
dict of which validate_board reads only the "layers" entry
(`board.stackup.get("layers", [])` and the `"layers" not in
board.stackup` test); `none` models an absent "layers" key.  Other
entries (totalThickness) are read by no check and no claim. -/
structure Stackup : Type where
  layers : Option (List Layer)

/-- Board aggregate from models.py. -/
structure Board : Type where
  metadata : Obj
  boundary : Option Polygon
  stackup : Stackup
  nets : List Net
  components : List (String × Component)
  traces : List (String × Trace)
  vias : List (String × Via)
  pours : Obj
  keepouts : List Keepout

/-- Lookup in a Dict[str, str] (via.span). -/
def lookupStr : List (String × String) → String → Option String
  | [], _ => none
  | (k', v) :: rest, k => if k' = k then some v else lookupStr rest k

/-! ## Point-in-polygon (geometry.py: Polygon.contains_point) -/

/-- One iteration of the ray-casting loop.  Python's `and` is lazy: the
x-intercept division only runs when the y-span condition holds, and a
zero denominator at that point would raise ZeroDivisionError. -/
def ray_step (x y : ℚ) (inside : Bool) (p1 p2 : Point) : Except PyErr Bool :=
  if (decide (p1.y > y)) ≠ (decide (p2.y > y)) then
    if p2.y - p1.y = 0 then .error (.zeroDivisionError "float division by zero")
    else .ok (if x < (p2.x - p1.x) * (y - p1.y) / (p2.y - p1.y) + p1.x then !inside else inside)
  else .ok inside

/-- The ray-casting loop over the consecutive point pairs. -/
def ray_loop (x y : ℚ) : Bool → List (Point × Point) → Except PyErr Bool
  | inside, [] => .ok inside
  | inside, (p1, p2) :: rest => do
      let inside' ← ray_step x y inside p1 p2
      ray_loop x y inside' rest

/-- Polygon.contains_point from geometry.py: `self.points[0]` raises
IndexError on an empty vertex list; then the loop walks pairs
(points[i-1], points[i]). -/
def contains_pointE (poly : Polygon) (pt : Point) : Except PyErr Bool :=
  match poly.points with
  | [] => .error (.indexError "list index out of range")
  | p0 :: rest => ray_loop pt.x pt.y false ((p0 :: rest).zip rest)

end PCB

namespace PCB

/-! ## validate_board (validate.py) -/

/-- Python set membership `o in names` for an optional string: None is
never a member of a set of strings. -/
def opt_in (o : Option String) (names : List String) : Prop :=
  match o with
  | some s => s ∈ names
  | none => False

instance instDecidableOptIn : ∀ (o : Option String) (names : List String), Decidable (opt_in o names)
  | some s, names => inferInstanceAs (Decidable (s ∈ names))
  | none, _ => isFalse (fun h => h)

/-- The net-name reference set of validate.py line 120. -/
def net_names (b : Board) : List String := b.nets.map Net.name

/-- The layer-name reference set of validate.py line 121. -/
def layer_names (b : Board) : List String := (b.stackup.layers.getD []).map Layer.name

/-- Check 1 (validate.py lines 108-116): boundary absent or with fewer
than 3 points.  `not board.boundary` is true exactly for None since
pydantic models are always truthy. -/
def missing_boundary_defects (b : Board) : List ValidationErr :=
  if (match b.boundary with
      | none => true
      | some poly => decide (poly.points.length < 3)) then
    [⟨.MISSING_BOUNDARY, .ERROR, "$.boundary"⟩]
  else []

/-- The trace loop of validate.py lines 125-169, in source order:
MALFORMED_TRACE, DANGLING_TRACE, NONEXISTENT_LAYER, NEGATIVE_WIDTH per
trace.  `trace.path and len(...) < 2` reduces to the length test since
a Polyline model object is always truthy. -/
def trace_defects (nn ln : List String) : List (String × Trace) → List ValidationErr
  | [] => []
  | (trace_id, trace) :: rest =>
      ((if trace.path.points.length < 2 then
          [⟨.MALFORMED_TRACE, .ERROR, "$.traces." ++ trace_id ++ ".path.coordinates"⟩]
        else []) ++
       (if trace.net_name ∉ nn then
          [⟨.DANGLING_TRACE, .ERROR, "$.traces." ++ trace_id ++ ".net_name"⟩]
        else []) ++
       (if trace.layer_hash ∉ ln then
          [⟨.NONEXISTENT_LAYER, .ERROR, "$.traces." ++ trace_id ++ ".layer_hash"⟩]
        else []) ++
       (if trace.width ≤ 0 then
          [⟨.NEGATIVE_WIDTH, .ERROR, "$.traces." ++ trace_id ++ ".width"⟩]
        else [])) ++
      trace_defects nn ln rest

/-- The via loop of validate.py lines 173-208: NONEXISTENT_NET,
INVALID_VIA_GEOMETRY (hole_size >= diameter), NONEXISTENT_LAYER on the
span (a missing span entry is None, which is not in the name set). -/
def via_defects (nn ln : List String) : List (String × Via) → List ValidationErr
  | [] => []
  | (via_id, via) :: rest =>
      ((if via.net_name ∉ nn then
          [⟨.NONEXISTENT_NET, .ERROR, "$.vias." ++ via_id ++ ".net_name"⟩]
        else []) ++
       (if via.hole_size ≥ via.diameter then
          [⟨.INVALID_VIA_GEOMETRY, .ERROR, "$.vias." ++ via_id ++ ".hole_size"⟩]
        else []) ++
       (if ¬ opt_in (lookupStr via.span "start_layer") ln ∨
           ¬ opt_in (lookupStr via.span "end_layer") ln then
          [⟨.NONEXISTENT_LAYER, .ERROR, "$.vias." ++ via_id ++ ".span"⟩]
        else [])) ++
      via_defects nn ln rest

/-- Check 10 (validate.py lines 211-219): empty components and traces. -/
def empty_board_defects (b : Board) : List ValidationErr :=
  if b.components.isEmpty && b.traces.isEmpty then
    [⟨.EMPTY_BOARD, .ERROR, "$"⟩]
  else []

/-- Check 2 (validate.py lines 222-230), run after the trace, via and
empty-board checks: boundary present and self-intersecting. -/
def self_intersect_defects (b : Board) : List ValidationErr :=
  match b.boundary with
  | some poly =>
      if is_self_intersecting poly then
        [⟨.SELF_INTERSECTING_BOUNDARY, .ERROR, "$.boundary.coordinates"⟩]
      else []
  | none => []

/-- The pin loop of validate.py lines 259-281: INVALID_PIN_REFERENCE
then NONEXISTENT_NET per pin. -/
def pin_defects (nn : List String) (comp_name0 : String) (comp : Component) :
    List (String × Pin) → List ValidationErr
  | [] => []
  | (pin_name, pin) :: rest =>
      ((if pin.comp_name ≠ comp.name then
          [⟨.INVALID_PIN_REFERENCE, .ERROR,
            "$.components." ++ comp_name0 ++ ".pins." ++ pin_name ++ ".comp_name"⟩]
        else []) ++
       (if ¬ opt_in pin.net_name nn then
          [⟨.NONEXISTENT_NET, .ERROR,
            "$.components." ++ comp_name0 ++ ".pins." ++ pin_name ++ ".net_name"⟩]
        else [])) ++
      pin_defects nn comp_name0 comp rest

/-- The component loop of validate.py lines 235-281: per component, the
containment check (which evaluates contains_point and so can in
principle raise), the rotation range check and the pin checks. -/
def comp_defects (nn : List String) (poly : Polygon) :
    List (String × Component) → Except PyErr (List ValidationErr)
  | [] => .ok []
  | (comp_name0, comp) :: rest => do
      let inside ← contains_pointE poly comp.transform.position
      let drest ← comp_defects nn poly rest
      .ok ((if inside then []
        else [⟨.COMPONENT_OUTSIDE_BOUNDARY, .ERROR,
          "$.components." ++ comp_name0 ++ ".transform.position"⟩]) ++
       (if 0 ≤ comp.transform.rotation ∧ comp.transform.rotation ≤ 360 then []
        else [⟨.INVALID_ROTATION, .ERROR,
          "$.components." ++ comp_name0 ++ ".transform.rotation"⟩]) ++
       pin_defects nn comp_name0 comp comp.pins ++ drest)

/-- The component section: gated on boundary presence (validate.py line
234) — with no boundary, checks 11-14 are skipped entirely. -/
def comp_section (b : Board) : Except PyErr (List ValidationErr) :=
  match b.boundary with
  | some poly => comp_defects (net_names b) poly b.components
  | none => .ok []

/-- Insertion step for the model of Python sorted() on integers. -/
def insort_int (x : ℤ) : List ℤ → List ℤ
  | [] => [x]
  | y :: ys => if x ≤ y then x :: y :: ys else y :: insort_int x ys

/-- Ascending sort of the layer indices (Python sorted()). -/
def sort_ints : List ℤ → List ℤ
  | [] => []
  | x :: xs => insort_int x (sort_ints xs)

/-- Contiguity of the sorted indices against
range(indices[0], indices[0] + len(indices)), validate.py lines 295-306. -/
def stackup_gap_defects : List ℤ → List ValidationErr
  | [] => []
  | i0 :: rest =>
      if i0 :: rest = (List.range (i0 :: rest).length).map (fun k => i0 + (k : ℤ)) then []
      else [⟨.MALFORMED_STACKUP, .ERROR, "$.stackup.layers"⟩]

/-- Checks 15-16 (validate.py lines 285-306): missing or empty layers,
then the contiguity check on the sorted indices. -/
def stackup_defects : Option (List Layer) → List ValidationErr
  | none => [⟨.MALFORMED_STACKUP, .ERROR, "$.stackup.layers"⟩]
  | some [] => [⟨.MALFORMED_STACKUP, .ERROR, "$.stackup.layers"⟩]
  | some (l0 :: ls) => stackup_gap_defects (sort_ints ((l0 :: ls).map Layer.index))

/-- validate_board from validate.py: the single errors list accumulated
in source order — missing boundary, traces, vias, empty board,
self-intersection, components (boundary-gated), stackup. -/
def validate_board (b : Board) : Except PyErr (List ValidationErr) := do
  let d5 ← comp_section b
  .ok (missing_boundary_defects b ++
    trace_defects (net_names b) (layer_names b) b.traces ++
    via_defects (net_names b) (layer_names b) b.vias ++
    empty_board_defects b ++
    self_intersect_defects b ++
    d5 ++
    stackup_defects b.stackup.layers)

end PCB

namespace PCB

/-! ## Totality of validate_board (claim C4) -/

theorem except_ok_bind {eps alpha beta : Type} (a : alpha) (f : alpha → Except eps beta) :
    (Except.ok a >>= f : Except eps beta) = f a := rfl

theorem except_error_bind {eps alpha beta : Type} (e : eps) (f : alpha → Except eps beta) :
    (Except.error e >>= f : Except eps beta) = .error e := rfl

theorem ray_step_ok (x y : ℚ) (inside : Bool) (p1 p2 : Point) :
    ∃ b, ray_step x y inside p1 p2 = .ok b := by
  rw [ray_step]
  by_cases h : (decide (p1.y > y)) ≠ (decide (p2.y > y))
  · rw [if_pos h]
    have hne : p2.y - p1.y ≠ 0 := by
      rw [sub_ne_zero]
      cases hd1 : decide (p1.y > y) <;> cases hd2 : decide (p2.y > y)
      · rw [hd1, hd2] at h
        exact absurd rfl h
      · have h1 : ¬ (p1.y > y) := of_decide_eq_false hd1
        have h2 : p2.y > y := of_decide_eq_true hd2
        intro he
        rw [he] at h2
        exact h1 h2
      · have h1 : p1.y > y := of_decide_eq_true hd1
        have h2 : ¬ (p2.y > y) := of_decide_eq_false hd2
        intro he
        apply h2
        rw [he]
        exact h1
      · rw [hd1, hd2] at h
        exact absurd rfl h
    rw [if_neg hne]
    exact ⟨_, rfl⟩
  · rw [if_neg h]
    exact ⟨inside, rfl⟩

theorem ray_loop_ok (x y : ℚ) :
    ∀ (prs : List (Point × Point)) (inside : Bool), ∃ b, ray_loop x y inside prs = .ok b
  | [], inside => ⟨inside, rfl⟩
  | (p1, p2) :: rest, inside => by
      obtain ⟨b1, hb1⟩ := ray_step_ok x y inside p1 p2
      obtain ⟨b2, hb2⟩ := ray_loop_ok x y rest b1
      refine ⟨b2, ?_⟩
      rw [ray_loop, hb1, except_ok_bind]
      exact hb2

theorem contains_point_ok (poly : Polygon) (pt : Point) (h : poly.points ≠ []) :
    ∃ b, contains_pointE poly pt = .ok b := by
  cases hp : poly.points with
  | nil => exact absurd hp h
  | cons p0 rest =>
      rw [contains_pointE.eq_def, hp]
      exact ray_loop_ok pt.x pt.y _ false

theorem comp_defects_ok (nn : List String) (poly : Polygon) (hpoly : poly.points ≠ []) :
    ∀ comps, ∃ d5, comp_defects nn poly comps = .ok d5
  | [] => ⟨[], rfl⟩
  | (cname, comp) :: rest => by
      obtain ⟨ins, hins⟩ := contains_point_ok poly comp.transform.position hpoly
      obtain ⟨drest, hdrest⟩ := comp_defects_ok nn poly hpoly rest
      rw [comp_defects, hins, except_ok_bind, hdrest, except_ok_bind]
      exact ⟨_, rfl⟩

/-- C4: validate_board returns a defect list and reaches no error state
for every Board whose boundary polygon, when present, has a nonempty
vertex ring (the Polygon constructor guarantees at least 3 points).  In
particular the x-intercept division of contains_point is guarded — its
y-span condition forces a nonzero denominator — and the stackup index
access only runs on a nonempty layer list. -/
theorem claim_C4 (b : Board)
    (hb : ∀ poly, b.boundary = some poly → poly.points ≠ []) :
    ∃ l, validate_board b = .ok l := by
  have hcs : ∃ d5, comp_section b = .ok d5 := by
    cases hbd : b.boundary with
    | none =>
        rw [comp_section.eq_def, hbd]
        exact ⟨[], rfl⟩
    | some poly =>
        rw [comp_section.eq_def, hbd]
        exact comp_defects_ok (net_names b) poly (hb poly hbd) b.components
  obtain ⟨d5, hd5⟩ := hcs
  rw [validate_board, hd5, except_ok_bind]
  exact ⟨_, rfl⟩

/-- Witness board for C4: a populated, well-formed board. -/
def c4board : Board :=
  { metadata := []
    boundary := some ⟨[⟨0, 0⟩, ⟨10, 0⟩, ⟨10, 10⟩, ⟨0, 10⟩, ⟨0, 0⟩]⟩
    stackup := ⟨some [⟨"TOP", .TOP, 0, []⟩]⟩
    nets := [⟨"GND", "SIGNAL"⟩]
    components := [("C1",
      { name := "C1"
        reference := "R1"
        footprint := "0402"
        outline := []
        transform := ⟨⟨5, 5⟩, 0, .FRONT⟩
        pins := [("1",
          { name := "1"
            comp_name := "C1"
            net_name := some "GND"
            shape := []
            position := ⟨0, 0⟩
            rotation := 0
            is_throughhole := false })]
        user_preplaced := false })]
    traces := []
    vias := []
    pours := []
    keepouts := [] }

/-- Witness for C4 at a concrete board with a boundary and a component. -/
theorem claim_C4_witness : ∃ l, validate_board c4board = .ok l :=
  claim_C4 c4board (by
    intro poly h
    injection h with h
    rw [← h]
    simp)

end PCB

namespace PCB

/-! ## Defect characterization per validate_board section -/

theorem mem_ite_singleton {alpha : Type} {c : Prop} [Decidable c] {x d : alpha}
    (h : d ∈ (if c then [x] else [])) : d = x := by
  by_cases hc : c
  · rw [if_pos hc] at h
    exact List.mem_singleton.mp h
  · rw [if_neg hc] at h
    exact absurd h (List.not_mem_nil d)

theorem mem_ite_singleton_neg {alpha : Type} {c : Prop} [Decidable c] {x d : alpha}
    (h : d ∈ (if c then [] else [x])) : d = x := by
  by_cases hc : c
  · rw [if_pos hc] at h
    exact absurd h (List.not_mem_nil d)
  · rw [if_neg hc] at h
    exact List.mem_singleton.mp h

theorem missing_defects_code (b : Board) :
    ∀ d ∈ missing_boundary_defects b, d.code = .MISSING_BOUNDARY := by
  intro d hd
  rw [missing_boundary_defects] at hd
  rw [mem_ite_singleton hd]

theorem empty_defects_code (b : Board) :
    ∀ d ∈ empty_board_defects b, d.code = .EMPTY_BOARD := by
  intro d hd
  rw [empty_board_defects] at hd
  rw [mem_ite_singleton hd]

theorem self_defects_code (b : Board) :
    ∀ d ∈ self_intersect_defects b, d.code = .SELF_INTERSECTING_BOUNDARY := by
  rw [self_intersect_defects.eq_def]
  cases b.boundary with
  | none =>
      intro d hd
      exact absurd hd (List.not_mem_nil d)
  | some poly =>
      intro d hd
      rw [mem_ite_singleton hd]

theorem trace_defects_codes (nn ln : List String) :
    ∀ ts d, d ∈ trace_defects nn ln ts →
      d.code = .MALFORMED_TRACE ∨ d.code = .DANGLING_TRACE ∨
      d.code = .NONEXISTENT_LAYER ∨ d.code = .NEGATIVE_WIDTH
  | [], d, hd => by
      rw [trace_defects] at hd
      exact absurd hd (List.not_mem_nil d)
  | (tid, t) :: rest, d, hd => by
      rw [trace_defects] at hd
      simp only [List.mem_append] at hd
      rcases hd with (((h | h) | h) | h) | h
      · rw [mem_ite_singleton h]
        exact Or.inl rfl
      · rw [mem_ite_singleton h]
        exact Or.inr (Or.inl rfl)
      · rw [mem_ite_singleton h]
        exact Or.inr (Or.inr (Or.inl rfl))
      · rw [mem_ite_singleton h]
        exact Or.inr (Or.inr (Or.inr rfl))
      · exact trace_defects_codes nn ln rest d h

theorem via_defects_chars (nn ln : List String) :
    ∀ vs d, d ∈ via_defects nn ln vs →
      (d.code = .NONEXISTENT_NET ∧
        ∃ vid, d.json_path = "$.vias." ++ vid ++ ".net_name") ∨
      d.code = .INVALID_VIA_GEOMETRY ∨ d.code = .NONEXISTENT_LAYER
  | [], d, hd => by
      rw [via_defects] at hd
      exact absurd hd (List.not_mem_nil d)
  | (vid, v) :: rest, d, hd => by
      rw [via_defects] at hd
      simp only [List.mem_append] at hd
      rcases hd with ((h | h) | h) | h
      · rw [mem_ite_singleton h]
        exact Or.inl ⟨rfl, vid, rfl⟩
      · rw [mem_ite_singleton h]
        exact Or.inr (Or.inl rfl)
      · rw [mem_ite_singleton h]
        exact Or.inr (Or.inr rfl)
      · exact via_defects_chars nn ln rest d h

theorem pin_defects_chars (nn : List String) (cname : String) (comp : Component) :
    ∀ pins d, d ∈ pin_defects nn cname comp pins →
      d.code = .INVALID_PIN_REFERENCE ∨
      (d.code = .NONEXISTENT_NET ∧
        ∃ c p, d.json_path = "$.components." ++ c ++ ".pins." ++ p ++ ".net_name")
  | [], d, hd => by
      rw [pin_defects] at hd
      exact absurd hd (List.not_mem_nil d)
  | (pname, pin) :: rest, d, hd => by
      rw [pin_defects] at hd
      simp only [List.mem_append] at hd
      rcases hd with (h | h) | h
      · rw [mem_ite_singleton h]
        exact Or.inl rfl
      · rw [mem_ite_singleton h]
        exact Or.inr ⟨rfl, cname, pname, rfl⟩
      · exact pin_defects_chars nn cname comp rest d h

theorem comp_defects_chars (nn : List String) (poly : Polygon) :
    ∀ comps d5, comp_defects nn poly comps = .ok d5 → ∀ d ∈ d5,
      d.code = .COMPONENT_OUTSIDE_BOUNDARY ∨ d.code = .INVALID_ROTATION ∨
      d.code = .INVALID_PIN_REFERENCE ∨
      (d.code = .NONEXISTENT_NET ∧
        ∃ c p, d.json_path = "$.components." ++ c ++ ".pins." ++ p ++ ".net_name")
  | [], d5, h, d, hd => by
      rw [comp_defects] at h
      injection h with h
      rw [← h] at hd
      exact absurd hd (List.not_mem_nil d)
  | (cname, comp) :: rest, d5, h, d, hd => by
      rw [comp_defects] at h
      cases hins : contains_pointE poly comp.transform.position with
      | error e =>
          rw [hins, except_error_bind] at h
          exact Except.noConfusion h
      | ok ins =>
          rw [hins, except_ok_bind] at h
          cases hrest : comp_defects nn poly rest with
          | error e =>
              rw [hrest, except_error_bind] at h
              exact Except.noConfusion h
          | ok drest =>
              rw [hrest, except_ok_bind] at h
              injection h with h
              rw [← h] at hd
              simp only [List.mem_append] at hd
              rcases hd with ((h1 | h2) | h3) | h4
              · rw [mem_ite_singleton_neg h1]
                exact Or.inl rfl
              · rw [mem_ite_singleton_neg h2]
                exact Or.inr (Or.inl rfl)
              · rcases pin_defects_chars nn cname comp comp.pins d h3 with hp | hp
                · exact Or.inr (Or.inr (Or.inl hp))
                · exact Or.inr (Or.inr (Or.inr hp))
              · exact comp_defects_chars nn poly rest drest hrest d h4

theorem comp_section_chars (b : Board) (d5 : List ValidationErr)
    (h : comp_section b = .ok d5) : ∀ d ∈ d5,
      d.code = .COMPONENT_OUTSIDE_BOUNDARY ∨ d.code = .INVALID_ROTATION ∨
      d.code = .INVALID_PIN_REFERENCE ∨
      (d.code = .NONEXISTENT_NET ∧
        ∃ c p, d.json_path = "$.components." ++ c ++ ".pins." ++ p ++ ".net_name") := by
  cases hbd : b.boundary with
  | none =>
      rw [comp_section.eq_def, hbd] at h
      injection h with h
      rw [← h]
      intro d hd
      exact absurd hd (List.not_mem_nil d)
  | some poly =>
      rw [comp_section.eq_def, hbd] at h
      exact comp_defects_chars (net_names b) poly b.components d5 h

theorem stackup_gap_code : ∀ idx d, d ∈ stackup_gap_defects idx →
    d.code = .MALFORMED_STACKUP
  | [], d, hd => by
      rw [stackup_gap_defects] at hd
      exact absurd hd (List.not_mem_nil d)
  | i0 :: rest, d, hd => by
      rw [stackup_gap_defects] at hd
      rw [mem_ite_singleton_neg hd]

theorem stackup_defects_code : ∀ st d, d ∈ stackup_defects st →
    d.code = .MALFORMED_STACKUP
  | none, d, hd => by
      rw [stackup_defects] at hd
      rw [List.mem_singleton.mp hd]
  | some [], d, hd => by
      rw [stackup_defects] at hd
      rw [List.mem_singleton.mp hd]
  | some (l0 :: ls), d, hd => by
      rw [stackup_defects] at hd
      exact stackup_gap_code _ d hd

theorem validate_board_inv (b : Board) (l : List ValidationErr)
    (h : validate_board b = .ok l) :
    ∃ d5, comp_section b = .ok d5 ∧
      l = missing_boundary_defects b ++
        trace_defects (net_names b) (layer_names b) b.traces ++
        via_defects (net_names b) (layer_names b) b.vias ++
        empty_board_defects b ++
        self_intersect_defects b ++
        d5 ++
        stackup_defects b.stackup.layers := by
  rw [validate_board] at h
  cases hcs : comp_section b with
  | error e =>
      rw [hcs, except_error_bind] at h
      exact Except.noConfusion h
  | ok d5 =>
      rw [hcs, except_ok_bind] at h
      injection h with h
      exact ⟨d5, rfl, h.symm⟩

end PCB

namespace PCB

/-! ## Claim C5: ordering of the self-intersection defect -/

theorem string_data_append (s t : String) : (s ++ t).data = s.data ++ t.data := rfl

theorem vias_ne_components (x y : String) :
    "$.vias." ++ x ≠ "$.components." ++ y := by
  intro h
  have h2 := congrArg String.data h
  rw [string_data_append, string_data_append,
    show ("$.vias.").data = ['$', '.', 'v', 'i', 'a', 's', '.'] from rfl,
    show ("$.components.").data =
      ['$', '.', 'c', 'o', 'm', 'p', 'o', 'n', 'e', 'n', 't', 's', '.'] from rfl] at h2
  simp only [List.cons_append, List.nil_append] at h2
  injection h2 with hc1 h2
  injection h2 with hc2 h2
  injection h2 with hc3 h2
  exact absurd hc3 (by decide)

theorem string_append_assoc (s t u : String) : (s ++ t) ++ u = s ++ (t ++ u) :=
  congrArg String.mk (List.append_assoc s.data t.data u.data)

theorem vias_path_ne_components_path (vid c p : String) :
    "$.vias." ++ vid ++ ".net_name" ≠
      "$.components." ++ c ++ ".pins." ++ p ++ ".net_name" := by
  intro h
  rw [string_append_assoc "$.vias." vid ".net_name",
    string_append_assoc, string_append_assoc, string_append_assoc] at h
  exact vias_ne_components _ _ h

/-- The defect kinds of checks 3-10 in the order claimed by the spec:
trace checks, via checks and the empty-board check.  The shared code
NONEXISTENT_NET belongs here only at via level, identified by its json
path under $.vias. -/
def mid_check_codes : List ErrorCode :=
  [.MALFORMED_TRACE, .DANGLING_TRACE, .NONEXISTENT_LAYER, .NEGATIVE_WIDTH,
   .INVALID_VIA_GEOMETRY, .EMPTY_BOARD]

/-- A defect produced by one of the checks 3-10 of the claimed table. -/
def MidDefect (d : ValidationErr) : Prop :=
  d.code ∈ mid_check_codes ∨
  (d.code = .NONEXISTENT_NET ∧ ∃ vid, d.json_path = "$.vias." ++ vid ++ ".net_name")

theorem length_le_of_get?_append {alpha : Type} {A B : List alpha} {i : ℕ} {x : alpha}
    (hi : (A ++ B).get? i = some x) (hx : x ∉ A) : A.length ≤ i := by
  by_contra hlt
  push_neg at hlt
  rw [List.get?_append hlt] at hi
  exact hx (List.get?_mem hi)

theorem lt_length_of_get?_append {alpha : Type} {A B : List alpha} {j : ℕ} {x : alpha}
    (hj : (A ++ B).get? j = some x) (hx : x ∉ B) : j < A.length := by
  by_contra hle
  push_neg at hle
  rw [List.get?_append_right hle] at hj
  exact hx (List.get?_mem hj)

/-- C5 as the code has it (amended): in the returned list, the
SELF_INTERSECTING_BOUNDARY defect comes after every defect of checks
3-10 (trace, via and empty-board defects) — validate_board runs the
self-intersection check after those checks, not before them as the
spec's table order claims. -/
theorem claim_C5 (b : Board) (l : List ValidationErr) (i j : ℕ) (d d' : ValidationErr)
    (h : validate_board b = .ok l)
    (hi : l.get? i = some d) (hdi : d.code = .SELF_INTERSECTING_BOUNDARY)
    (hj : l.get? j = some d') (hdj : MidDefect d') :
    j < i := by
  obtain ⟨d5, hd5, hl⟩ := validate_board_inv b l h
  subst hl
  have hassoc :
      missing_boundary_defects b ++
        trace_defects (net_names b) (layer_names b) b.traces ++
        via_defects (net_names b) (layer_names b) b.vias ++
        empty_board_defects b ++
        self_intersect_defects b ++ d5 ++ stackup_defects b.stackup.layers =
      (missing_boundary_defects b ++
        trace_defects (net_names b) (layer_names b) b.traces ++
        via_defects (net_names b) (layer_names b) b.vias ++
        empty_board_defects b) ++
      (self_intersect_defects b ++ (d5 ++ stackup_defects b.stackup.layers)) := by
    simp [List.append_assoc]
  rw [hassoc] at hi hj
  have hdA : d ∉ missing_boundary_defects b ++
      trace_defects (net_names b) (layer_names b) b.traces ++
      via_defects (net_names b) (layer_names b) b.vias ++
      empty_board_defects b := by
    intro hmem
    simp only [List.mem_append] at hmem
    rcases hmem with ((hm | hm) | hm) | hm
    · exact absurd ((missing_defects_code b d hm).symm.trans hdi) (by decide)
    · rcases trace_defects_codes _ _ _ d hm with hc | hc | hc | hc <;>
        exact absurd (hc.symm.trans hdi) (by decide)
    · rcases via_defects_chars _ _ _ d hm with ⟨hc, _⟩ | hc | hc <;>
        exact absurd (hc.symm.trans hdi) (by decide)
    · exact absurd ((empty_defects_code b d hm).symm.trans hdi) (by decide)
  have hd'X : d' ∉ self_intersect_defects b ++ (d5 ++ stackup_defects b.stackup.layers) := by
    intro hmem
    simp only [List.mem_append] at hmem
    rcases hmem with hm | hm | hm
    · have hc := self_defects_code b d' hm
      rcases hdj with hplain | ⟨hnn, _⟩
      · rw [hc] at hplain
        exact absurd hplain (by decide)
      · exact absurd (hc.symm.trans hnn) (by decide)
    · rcases comp_section_chars b d5 hd5 d' hm with hc | hc | hc | ⟨hnn0, c, p, hpath⟩
      · rcases hdj with hplain | ⟨hnn, _⟩
        · rw [hc] at hplain
          exact absurd hplain (by decide)
        · exact absurd (hc.symm.trans hnn) (by decide)
      · rcases hdj with hplain | ⟨hnn, _⟩
        · rw [hc] at hplain
          exact absurd hplain (by decide)
        · exact absurd (hc.symm.trans hnn) (by decide)
      · rcases hdj with hplain | ⟨hnn, _⟩
        · rw [hc] at hplain
          exact absurd hplain (by decide)
        · exact absurd (hc.symm.trans hnn) (by decide)
      · rcases hdj with hplain | ⟨_, vid, hvpath⟩
        · rw [hnn0] at hplain
          exact absurd hplain (by decide)
        · exact vias_path_ne_components_path vid c p (hvpath.symm.trans hpath)
    · have hc := stackup_defects_code _ d' hm
      rcases hdj with hplain | ⟨hnn, _⟩
      · rw [hc] at hplain
        exact absurd hplain (by decide)
      · exact absurd (hc.symm.trans hnn) (by decide)
  have hiA := length_le_of_get?_append hi hdA
  have hjA := lt_length_of_get?_append hj hd'X
  omega

/-- The board refuting the claimed order: a self-intersecting (bowtie)
boundary on an otherwise empty board. -/
def c5board : Board :=
  { metadata := []
    boundary := some ⟨[⟨0, 0⟩, ⟨10, 10⟩, ⟨10, 0⟩, ⟨0, 10⟩, ⟨0, 0⟩]⟩
    stackup := ⟨some [⟨"TOP", .TOP, 0, []⟩]⟩
    nets := []
    components := []
    traces := []
    vias := []
    pours := []
    keepouts := [] }

/-- Counterexample to C5 as stated: on c5board the defect list is
[EMPTY_BOARD, SELF_INTERSECTING_BOUNDARY] — the EMPTY_BOARD defect
(check 10) precedes the SELF_INTERSECTING_BOUNDARY defect (check 2), so
the self-intersection defect does not precede the check-3-10 defects. -/
theorem claim_C5_counterexample :
    validate_board c5board =
      .ok [⟨.EMPTY_BOARD, .ERROR, "$"⟩,
        ⟨.SELF_INTERSECTING_BOUNDARY, .ERROR, "$.boundary.coordinates"⟩] := by
  with_unfolding_all rfl

/-- Witness for the amended C5 at c5board: the mid defect at index 0
precedes the self-intersection defect at index 1. -/
theorem claim_C5_witness : (0 : ℕ) < 1 :=
  claim_C5 c5board
    [⟨.EMPTY_BOARD, .ERROR, "$"⟩,
      ⟨.SELF_INTERSECTING_BOUNDARY, .ERROR, "$.boundary.coordinates"⟩]
    1 0
    ⟨.SELF_INTERSECTING_BOUNDARY, .ERROR, "$.boundary.coordinates"⟩
    ⟨.EMPTY_BOARD, .ERROR, "$"⟩
    (by with_unfolding_all rfl) rfl rfl rfl (Or.inl (by decide))

end PCB

namespace PCB

/-! ## Claim C6: component checks are skipped without a boundary -/

theorem c6_conj_of_code (d : ValidationErr) (c : ErrorCode) (hc : d.code = c)
    (h1 : c ≠ .COMPONENT_OUTSIDE_BOUNDARY) (h2 : c ≠ .INVALID_ROTATION)
    (h3 : c ≠ .INVALID_PIN_REFERENCE) (h4 : c ≠ .NONEXISTENT_NET) :
    d.code ≠ .COMPONENT_OUTSIDE_BOUNDARY ∧ d.code ≠ .INVALID_ROTATION ∧
    d.code ≠ .INVALID_PIN_REFERENCE ∧
    (d.code = .NONEXISTENT_NET →
      ∃ vid, d.json_path = "$.vias." ++ vid ++ ".net_name") :=
  ⟨fun hh => h1 (hc.symm.trans hh), fun hh => h2 (hc.symm.trans hh),
   fun hh => h3 (hc.symm.trans hh), fun hh => absurd (hc.symm.trans hh) h4⟩

/-- C6: when the boundary is absent, validate_board emits no
COMPONENT_OUTSIDE_BOUNDARY, INVALID_ROTATION or INVALID_PIN_REFERENCE
defect and no pin-level NONEXISTENT_NET defect — any NONEXISTENT_NET
defect in the output is via-level (its json path is under $.vias) —
whatever components and pins the board carries. -/
theorem claim_C6 (b : Board) (l : List ValidationErr)
    (hb : b.boundary = none) (h : validate_board b = .ok l) :
    ∀ d ∈ l, d.code ≠ .COMPONENT_OUTSIDE_BOUNDARY ∧ d.code ≠ .INVALID_ROTATION ∧
      d.code ≠ .INVALID_PIN_REFERENCE ∧
      (d.code = .NONEXISTENT_NET →
        ∃ vid, d.json_path = "$.vias." ++ vid ++ ".net_name") := by
  obtain ⟨d5, hd5, hl⟩ := validate_board_inv b l h
  have hd5nil : d5 = [] := by
    rw [comp_section.eq_def, hb] at hd5
    injection hd5 with hd5
    exact hd5.symm
  have hself : self_intersect_defects b = [] := by
    rw [self_intersect_defects.eq_def, hb]
  subst hd5nil
  rw [hself] at hl
  subst hl
  intro d hd
  simp only [List.mem_append, List.append_nil, List.not_mem_nil, or_false] at hd
  rcases hd with (((hm | hm) | hm) | hm) | hm
  · exact c6_conj_of_code d _ (missing_defects_code b d hm)
      (by decide) (by decide) (by decide) (by decide)
  · rcases trace_defects_codes _ _ _ d hm with hc | hc | hc | hc <;>
      exact c6_conj_of_code d _ hc (by decide) (by decide) (by decide) (by decide)
  · rcases via_defects_chars _ _ _ d hm with ⟨hnn, vid, hpath⟩ | hc | hc
    · exact ⟨fun hh => absurd (hnn.symm.trans hh) (by decide),
        fun hh => absurd (hnn.symm.trans hh) (by decide),
        fun hh => absurd (hnn.symm.trans hh) (by decide),
        fun _ => ⟨vid, hpath⟩⟩
    · exact c6_conj_of_code d _ hc (by decide) (by decide) (by decide) (by decide)
    · exact c6_conj_of_code d _ hc (by decide) (by decide) (by decide) (by decide)
  · exact c6_conj_of_code d _ (empty_defects_code b d hm)
      (by decide) (by decide) (by decide) (by decide)
  · exact c6_conj_of_code d _ (stackup_defects_code _ d hm)
      (by decide) (by decide) (by decide) (by decide)

/-- Witness board for C6: no boundary, but a component with an
out-of-range rotation, a mismatched pin back-reference and an unknown
pin net — none of which may be reported. -/
def c6board : Board :=
  { metadata := []
    boundary := none
    stackup := ⟨some [⟨"TOP", .TOP, 0, []⟩]⟩
    nets := []
    components := [("C1",
      { name := "C1"
        reference := "R1"
        footprint := "f"
        outline := []
        transform := ⟨⟨0, 0⟩, 400, .FRONT⟩
        pins := [("1",
          { name := "1"
            comp_name := "OTHER"
            net_name := some "NOPE"
            shape := []
            position := ⟨0, 0⟩
            rotation := 0
            is_throughhole := false })]
        user_preplaced := false })]
    traces := []
    vias := []
    pours := []
    keepouts := [] }

/-- Witness for C6 at c6board, instantiated at its single defect. -/
theorem claim_C6_witness :
    (⟨.MISSING_BOUNDARY, .ERROR, "$.boundary"⟩ : ValidationErr).code ≠
        .COMPONENT_OUTSIDE_BOUNDARY ∧
    (⟨.MISSING_BOUNDARY, .ERROR, "$.boundary"⟩ : ValidationErr).code ≠ .INVALID_ROTATION ∧
    (⟨.MISSING_BOUNDARY, .ERROR, "$.boundary"⟩ : ValidationErr).code ≠
        .INVALID_PIN_REFERENCE ∧
    ((⟨.MISSING_BOUNDARY, .ERROR, "$.boundary"⟩ : ValidationErr).code = .NONEXISTENT_NET →
      ∃ vid, (⟨.MISSING_BOUNDARY, .ERROR, "$.boundary"⟩ : ValidationErr).json_path =
        "$.vias." ++ vid ++ ".net_name") :=
  claim_C6 c6board [⟨.MISSING_BOUNDARY, .ERROR, "$.boundary"⟩] rfl
    (by with_unfolding_all rfl)
    ⟨.MISSING_BOUNDARY, .ERROR, "$.boundary"⟩
    (List.mem_singleton.mpr rfl)

end PCB

namespace PCB

/-! ## Model construction (parse.py: _parse_board_objects, parse_board_data)

The post-parse dictionary is heterogeneous in Python: section values are
replaced in place by geometry objects.  `PVal` is the value type of that
dictionary: untouched JSON values stay `raw`, fields degraded by the
permissive branches become `pnone` (Python None), and parsed geometry
carries the typed object. -/

inductive PVal : Type where
  | raw : Json → PVal
  | pnone : PVal
  | pt : Point → PVal
  | poly : Polygon → PVal
  | pline : Polyline → PVal
  | circ : Circle → PVal
  | layers : List Layer → PVal
  | dict : List (String × PVal) → PVal
  | list : List PVal → PVal

/-- View a JSON object as a post-parse dictionary (all values raw). -/
def objToPV (o : Obj) : List (String × PVal) := o.map (fun kv => (kv.1, PVal.raw kv.2))

/-- In-place dictionary update on the post-parse dictionary. -/
def setKeyPV : List (String × PVal) → String → PVal → List (String × PVal)
  | [], k, v => [(k, v)]
  | (k', v') :: rest, k, v =>
      if k' = k then (k, v) :: rest else (k', v') :: setKeyPV rest k v

/-- Lookup in the post-parse dictionary. -/
def lookupPV : List (String × PVal) → String → Option PVal
  | [], _ => none
  | (k', v) :: rest, k => if k' = k then some v else lookupPV rest k

/-- Monadic map, modelling a Python loop that can raise. -/
def mapE {alpha beta : Type} (f : alpha → Except PyErr beta) : List alpha → Except PyErr (List beta)
  | [] => .ok []
  | x :: xs => do
      let y ← f x
      let ys ← mapE f xs
      .ok (y :: ys)

/-- The boundary branch (parse.py lines 211-218): only a dict boundary
with a non-None coordinates entry is touched; ValueError (including
pydantic validation errors) from parse_coordinates or the Polygon
constructor degrades the boundary to None, any other exception
propagates. -/
def parse_boundary_section : Option Json → Except PyErr (Option PVal)
  | none => .ok none
  | some (.obj b) =>
      match lookupKV b "coordinates" with
      | none => .ok none
      | some .null => .ok none
      | some coords =>
          match parse_coordinates coords with
          | .error (.valueError _) => .ok (some .pnone)
          | .error e => .error e
          | .ok pts =>
              match mkPolygon pts with
              | .ok poly => .ok (some (.poly poly))
              | .error (.valueError _) => .ok (some .pnone)
              | .error e => .error e
  | some _ => .ok none

/-- The LayerType string enum of models.py. -/
def layerTypeFrom : String → Option LayerType
  | "TOP" => some .TOP
  | "BOTTOM" => some .BOTTOM
  | "MID" => some .MID
  | "PLANE" => some .PLANE
  | "DIELECTRIC" => some .DIELECTRIC
  | _ => none

/-- `Layer(**layer)`: pydantic validation of one stackup layer.  A
non-integral or missing index, a bad name, type or material raise a
ValidationError (ValueError); an integral float is accepted as int in
lax mode; a non-mapping argument raises TypeError.  (Numeric strings,
which lax mode would coerce, are not exercised by any claim.) -/
def layerFrom : Json → Except PyErr Layer
  | .obj kvs => do
      let name ← (match lookupKV kvs "name" with
        | some (.str s) => Except.ok s
        | _ => Except.error (.valueError "name must be a valid string"))
      let lt ← (match lookupKV kvs "layer_type" with
        | some (.str s) =>
            (match layerTypeFrom s with
             | some t => Except.ok t
             | none => Except.error (.valueError "layer_type is not a valid enumeration member"))
        | _ => Except.error (.valueError "layer_type is not a valid enumeration member"))
      let idx ← (match lookupKV kvs "index" with
        | some (.num q) =>
            if q.den = 1 then Except.ok q.num
            else Except.error (.valueError "index must be a valid integer")
        | _ => Except.error (.valueError "index must be a valid integer"))
      let mat ← (match lookupKV kvs "material" with
        | some (.obj o) => Except.ok o
        | _ => Except.error (.valueError "material must be a valid dictionary"))
      .ok ⟨name, lt, idx, mat⟩
  | _ => .error (.typeError "argument after ** must be a mapping")

/-- The stackup branch (parse.py lines 221-223): layers default to [],
each element goes through the Layer constructor with no exception
handler.  Iterating a non-list layers value yields characters or keys
(TypeError in the constructor unless empty). -/
def parse_stackup_section : Option Json → Except PyErr (Option PVal)
  | none => .ok none
  | some (.obj s) =>
      match (lookupKV s "layers").getD (.arr []) with
      | .arr items => do
          let ls ← mapE layerFrom items
          .ok (some (.dict (setKeyPV (objToPV s) "layers" (.layers ls))))
      | .str t =>
          if t.isEmpty then .ok (some (.dict (setKeyPV (objToPV s) "layers" (.layers []))))
          else .error (.typeError "argument after ** must be a mapping")
      | .obj kvs =>
          if kvs.isEmpty then .ok (some (.dict (setKeyPV (objToPV s) "layers" (.layers []))))
          else .error (.typeError "argument after ** must be a mapping")
      | _ => .error (.typeError "object is not iterable")
  | some _ => .ok none

/-- `Point(x=pos[0], y=pos[1])` on a raw position value: subscripting a
short list raises IndexError, a dict raises KeyError, a scalar raises
TypeError; extra elements beyond the first two are ignored.  (String
positions, whose single characters lax pydantic might coerce, are not
exercised by any claim.) -/
def pointFromPos : Json → Except PyErr Point
  | .arr (a :: b :: _) => do
      let x ← pointCoord a
      let y ← pointCoord b
      .ok ⟨x, y⟩
  | .arr _ => .error (.indexError "list index out of range")
  | .str _ => .error (.valueError "string index is not a valid float")
  | .obj _ => .error (.keyError "0")
  | _ => .error (.typeError "object is not subscriptable")

/-- One pin of the component loop (parse.py lines 234-236): position
defaults to [0, 0]; a non-dict pin fails at `.get` (AttributeError). -/
def parse_pin : Json → Except PyErr PVal
  | .obj pkvs => do
      let p ← pointFromPos ((lookupKV pkvs "position").getD (.arr [.num 0, .num 0]))
      .ok (.dict (setKeyPV (objToPV pkvs) "position" (.pt p)))
  | _ => .error (.attributeError "object has no attribute get")

/-- One component of the component loop (parse.py lines 226-236).
Exceptions here are not caught: a malformed position aborts the parse.
A non-dict component value raises on the membership test or attribute
access; the exact exception class differs by type but every case is an
uncaught exception, modelled uniformly. -/
def parse_component : Json → Except PyErr PVal
  | .obj ckvs => do
      let withT ← (match lookupKV ckvs "transform" with
        | none => Except.ok (objToPV ckvs)
        | some (.obj t) => do
            let p ← pointFromPos ((lookupKV t "position").getD (.arr [.num 0, .num 0]))
            Except.ok (setKeyPV (objToPV ckvs) "transform" (.dict
              [("position", .pt p),
               ("rotation", .raw ((lookupKV t "rotation").getD (.num 0))),
               ("side", .raw ((lookupKV t "side").getD (.str "FRONT")))]))
        | some _ => Except.error (.attributeError "object has no attribute get"))
      (match lookupKV ckvs "pins" with
       | none => Except.ok (PVal.dict withT)
       | some (.obj pins) => do
           let newPins ← mapE (fun kv => do
               let pv ← parse_pin kv.2
               Except.ok (kv.1, pv)) pins
           Except.ok (PVal.dict (setKeyPV withT "pins" (.dict newPins)))
       | some _ => Except.error (.attributeError "object has no attribute values"))
  | _ => .error (.typeError "argument of type is not iterable")

/-- The component loop over `data.get("components", {}).values()`; a
non-dict components section fails at `.values()`. -/
def parse_components_section : Option Json → Except PyErr (Option PVal)
  | none => .ok none
  | some (.obj comps) => do
      let newComps ← mapE (fun kv => do
          let cv ← parse_component kv.2
          Except.ok (kv.1, cv)) comps
      .ok (some (.dict newComps))
  | some _ => .error (.attributeError "object has no attribute values")

/-- One trace of the trace loop (parse.py lines 241-244): only a dict
trace with a dict path holding coordinates is touched, and
parse_coordinates runs with NO exception handler — a malformed trace
path propagates its ValueError and aborts the whole parse (contrast the
boundary branch).  A non-container path raises TypeError on the `in`
test; a list path raises only if it contains the string "coordinates";
a string path is skipped (substring test, assumed not to match). -/
def parse_trace : Json → Except PyErr (Option PVal)
  | .obj tkvs =>
      (match lookupKV tkvs "path" with
       | some (.obj pkvs) =>
           (match lookupKV pkvs "coordinates" with
            | some coords => do
                let pts ← parse_coordinates coords
                Except.ok (some (.dict (setKeyPV (objToPV tkvs) "path" (.pline ⟨pts⟩))))
            | none => Except.ok none)
       | some (.str _) => Except.ok none
       | some (.arr l) =>
           if l.any (fun u => match u with | .str "coordinates" => true | _ => false) then
             Except.error (.typeError "list indices must be integers")
           else Except.ok none
       | some _ => Except.error (.typeError "argument of type is not iterable")
       | none => Except.ok none)
  | _ => .ok none

/-- The trace loop over `data.get("traces", {}).values()`. -/
def parse_traces_section : Option Json → Except PyErr (Option PVal)
  | none => .ok none
  | some (.obj ts) => do
      let newTs ← mapE (fun kv => do
          let tv ← parse_trace kv.2
          Except.ok (kv.1, tv.getD (.raw kv.2))) ts
      .ok (some (.dict newTs))
  | some _ => .error (.attributeError "object has no attribute values")

/-- One via of the via loop (parse.py lines 247-250): a present center
is rebuilt as a Point with no exception handler.  A non-dict via raises
on the membership test (modelled uniformly as an exception). -/
def parse_via : Json → Except PyErr (Option PVal)
  | .obj vkvs =>
      (match lookupKV vkvs "center" with
       | none => Except.ok none
       | some c => do
           let p ← pointFromPos c
           Except.ok (some (.dict (setKeyPV (objToPV vkvs) "center" (.pt p)))))
  | _ => .error (.typeError "argument of type is not iterable")

/-- The via loop over `data.get("vias", {}).values()`. -/
def parse_vias_section : Option Json → Except PyErr (Option PVal)
  | none => .ok none
  | some (.obj vs) => do
      let newVs ← mapE (fun kv => do
          let vv ← parse_via kv.2
          Except.ok (kv.1, vv.getD (.raw kv.2))) vs
      .ok (some (.dict newVs))
  | some _ => .error (.attributeError "object has no attribute values")

/-- One keepout of the keepout loop (parse.py lines 254-282).  The
circle branch is guarded and wrapped in try/except — any malformed
circle degrades the shape to None.  The polygon branch
(`elif "coordinates" in shape_data`) has NO handler: parse_coordinates
or Polygon errors propagate and abort the parse.  A non-string shape
type fails at `.lower()`. -/
def parse_keepout : Json → Except PyErr (Option PVal)
  | .obj kkvs =>
      (match lookupKV kkvs "shape" with
       | some (.obj skvs) => do
           let stype ← (match lookupKV skvs "type" with
             | none => Except.ok ""
             | some (.str s) => Except.ok s.toLower
             | some _ => Except.error (.attributeError "object has no attribute lower"))
           if stype = "circle" then
             (match lookupKV skvs "center", lookupKV skvs "radius" with
              | some (.arr [c0, c1]), some r =>
                  if (match r with | .num _ => true | .bool _ => true | _ => false) then
                    (match (do
                        let x ← pointCoord c0
                        let y ← pointCoord c1
                        (match r with
                         | .num rq => mkCircle ⟨x, y⟩ rq
                         | _ => Except.error (.valueError "radius must be a valid number"))) with
                     | .ok circ0 =>
                         Except.ok (some (.dict (setKeyPV (objToPV kkvs) "shape" (.circ circ0))))
                     | .error _ =>
                         Except.ok (some (.dict (setKeyPV (objToPV kkvs) "shape" .pnone))))
                  else Except.ok (some (.dict (setKeyPV (objToPV kkvs) "shape" .pnone)))
              | _, _ => Except.ok (some (.dict (setKeyPV (objToPV kkvs) "shape" .pnone))))
           else
             (match lookupKV skvs "coordinates" with
              | some coords => do
                  let pts ← parse_coordinates coords
                  let poly ← mkPolygon pts
                  Except.ok (some (.dict (setKeyPV (objToPV kkvs) "shape" (.poly poly))))
              | none => Except.ok none)
       | _ => Except.ok none)
  | .str _ => .ok none
  | _ => .error (.typeError "argument of type is not iterable")

/-- The keepout loop over `data.get("keepouts", [])`.  Iterating a dict
yields its keys and iterating a string yields characters, which skip the
shape test (a dict key containing the substring "shape" would raise;
that pathological case is not modelled and not exercised). -/
def parse_keepouts_section : Option Json → Except PyErr (Option PVal)
  | none => .ok none
  | some (.arr ks) => do
      let newKs ← mapE (fun k => do
          let r ← parse_keepout k
          Except.ok (r.getD (.raw k))) ks
      .ok (some (.list newKs))
  | some (.obj _) => .ok none
  | some (.str _) => .ok none
  | some _ => .error (.typeError "object is not iterable")

/-- Rebuild one dictionary entry of the parsed document: section keys
take their transformed values (when the section was touched), all other
keys keep their raw JSON value. -/
def pick_section (bnd stk cmp trc vs kps : Option PVal) (k : String) (v : Json) : PVal :=
  if k = "boundary" then bnd.getD (.raw v)
  else if k = "stackup" then stk.getD (.raw v)
  else if k = "components" then cmp.getD (.raw v)
  else if k = "traces" then trc.getD (.raw v)
  else if k = "vias" then vs.getD (.raw v)
  else if k = "keepouts" then kps.getD (.raw v)
  else .raw v

/-- _parse_board_objects from parse.py: the six section branches run in
source order (first exception wins), mutating the document in place. -/
def parse_board_objects (data : Obj) : Except PyErr (List (String × PVal)) := do
  let bnd ← parse_boundary_section (lookupKV data "boundary")
  let stk ← parse_stackup_section (lookupKV data "stackup")
  let cmp ← parse_components_section (lookupKV data "components")
  let trc ← parse_traces_section (lookupKV data "traces")
  let vs ← parse_vias_section (lookupKV data "vias")
  let kps ← parse_keepouts_section (lookupKV data "keepouts")
  .ok (data.map (fun kv => (kv.1, pick_section bnd stk cmp trc vs kps kv.1 kv.2)))

/-- parse_board_data from parse.py, with the Board constructor
(`Board(**parsed)`) abstracted as a parameter: normalize units, return
no Board with the unit defects when any were produced, otherwise run
the try block; any exception there becomes a single PARSE_ERROR defect
with no Board. -/
def parse_board_data (assemble : Obj → Option Board) (data : Obj) :
    Option (Option Board × List ValidationErr) :=
  match normalize_units data with
  | none => none
  | some (data', unitErrors) =>
      if unitErrors.isEmpty then
        match assemble data' with
        | some board => some (some board, unitErrors)
        | none => some (none, unitErrors ++ [⟨.PARSE_ERROR, .ERROR, "$"⟩])
      else some (none, unitErrors)

/-- The try block of parse_board_data: _parse_board_objects followed by
the Board constructor, the latter quantified over (`none` models any
exception it might raise). -/
def assemble_of (g : List (String × PVal) → Option Board) (d : Obj) : Option Board :=
  match parse_board_objects d with
  | .error _ => none
  | .ok parsed => g parsed

end PCB

namespace PCB

/-! ## Claim C2: invalid unit halts the pipeline -/

/-- C2: when metadata.designUnits is present and neither "MICRON" nor
"MILLIMETER", normalize_units returns the document unchanged together
with exactly one INVALID_UNIT_SPECIFICATION defect at
$.metadata.designUnits, and parse_board_data returns no Board — for
every possible downstream assembler, since the pipeline halts before
model assembly. -/
theorem claim_C2 (data m : Obj) (u : Json)
    (hm : lookupKV data "metadata" = some (.obj m))
    (hu : lookupKV m "designUnits" = some u)
    (h1 : u ≠ .str "MICRON") (h2 : u ≠ .str "MILLIMETER") :
    normalize_units data =
      some (data, [⟨.INVALID_UNIT_SPECIFICATION, .ERROR, "$.metadata.designUnits"⟩]) ∧
    ∀ assemble, parse_board_data assemble data =
      some (none, [⟨.INVALID_UNIT_SPECIFICATION, .ERROR, "$.metadata.designUnits"⟩]) := by
  have hnw : normalize_with data u =
      (data, [⟨.INVALID_UNIT_SPECIFICATION, .ERROR, "$.metadata.designUnits"⟩]) := by
    cases u with
    | null => rfl
    | bool b => rfl
    | num q => rfl
    | arr l => rfl
    | obj o => rfl
    | str s =>
        have hs1 : s ≠ "MICRON" := fun hh => h1 (by rw [hh])
        have hs2 : s ≠ "MILLIMETER" := fun hh => h2 (by rw [hh])
        rw [normalize_with.eq_def]
        split
        · rename_i heq
          injection heq with heq
          exact absurd heq hs1
        · rename_i heq
          injection heq with heq
          exact absurd heq hs2
        · rfl
  have hnu : normalize_units data =
      some (data, [⟨.INVALID_UNIT_SPECIFICATION, .ERROR, "$.metadata.designUnits"⟩]) := by
    have step1 : normalize_units data =
        some (normalize_with data ((lookupKV m "designUnits").getD (.str "MICRON"))) := by
      rw [normalize_units.eq_def, hm]
    rw [step1, hu]
    rw [show (Option.getD (some u) (Json.str "MICRON")) = u from rfl, hnw]
  refine ⟨hnu, ?_⟩
  intro assemble
  rw [parse_board_data.eq_def, hnu]
  rfl

/-- Witness document for C2: designUnits "INCH". -/
def c2doc : Obj :=
  [("metadata", .obj [("designUnits", .str "INCH")]),
   ("boundary", .obj [("coordinates", .arr [.num 0, .num 0, .num 5, .num 0, .num 5, .num 5])])]

/-- Witness for C2 at a concrete "INCH" document. -/
theorem claim_C2_witness :
    normalize_units c2doc =
      some (c2doc, [⟨.INVALID_UNIT_SPECIFICATION, .ERROR, "$.metadata.designUnits"⟩]) ∧
    ∀ assemble, parse_board_data assemble c2doc =
      some (none, [⟨.INVALID_UNIT_SPECIFICATION, .ERROR, "$.metadata.designUnits"⟩]) :=
  claim_C2 c2doc [("designUnits", .str "INCH")] (.str "INCH") rfl rfl
    (by intro h; injection h with h; exact absurd h (by decide))
    (by intro h; injection h with h; exact absurd h (by decide))

/-! ## Claim C3: malformed trace paths abort the parse -/

/-- A document with a well-formed boundary and a trace whose path
coordinates are the empty array — the claimed behavior is that only
that one field degrades; the code instead raises. -/
def c3doc : Obj :=
  [("metadata", .obj [("designUnits", .str "MILLIMETER")]),
   ("boundary", .obj [("coordinates",
      .arr [.num 0, .num 0, .num 10, .num 0, .num 10, .num 10])]),
   ("traces", .obj [("t1", .obj [("path", .obj [("coordinates", .arr [])]),
      ("width", .num 1)])])]

/-- A document with a malformed boundary (a single point) and a
well-formed trace: here the code does degrade the boundary to None and
keeps parsing. -/
def c3docBnd : Obj :=
  [("metadata", .obj [("designUnits", .str "MILLIMETER")]),
   ("boundary", .obj [("coordinates", .arr [.num 0, .num 0])]),
   ("traces", .obj [("t1", .obj [("path", .obj [("coordinates",
      .arr [.arr [.num 0, .num 0], .arr [.num 5, .num 5]])]),
      ("width", .num 1)])])]

/-- C3 is violated by the code: a single malformed trace path (empty
coordinate array) raises ValueError inside _parse_board_objects — the
trace loop, unlike the boundary branch, has no try/except — and
parse_board_data converts it to a fatal PARSE_ERROR with no Board,
whatever the downstream Board constructor would do.  By contrast a
malformed boundary alone degrades to None while the sibling trace is
still parsed. -/
theorem claim_C3 :
    (∀ g, parse_board_data (assemble_of g) c3doc =
      some (none, [⟨.PARSE_ERROR, .ERROR, "$"⟩])) ∧
    (∃ e, parse_board_objects c3doc = .error (.valueError e)) ∧
    (∃ r, parse_board_objects c3docBnd = .ok r ∧
      lookupPV r "boundary" = some .pnone ∧
      lookupPV r "traces" = some (.dict [("t1", .dict
        [("path", .pline ⟨[⟨0, 0⟩, ⟨5, 5⟩]⟩), ("width", .raw (.num 1))])])) := by
  refine ⟨?_, ⟨"Empty coordinate array", by with_unfolding_all rfl⟩, ?_⟩
  · intro g
    with_unfolding_all rfl
  · exact ⟨_, by with_unfolding_all rfl, by with_unfolding_all rfl, by with_unfolding_all rfl⟩

end PCB
